import Mathlib

set_option maxHeartbeats 1000000
set_option maxRecDepth 100000

namespace TextToMidi

/-- Deterministic model of Python's global pseudo-random generator.
`random.seed` replaces the whole state by a value derived only from its
argument; every draw returns a value together with the successor state.  The
numeric stream of CPython's Mersenne twister is not reproduced; the model keeps
exactly the properties the programs rely on: the stream is a function of the
seed alone, and the draws stay inside their documented ranges. -/
structure PyRandom where
  state : Nat
deriving DecidableEq

/-- `random.seed(text)` for a string argument: a deterministic digest. -/
def seedOfString (s : String) : PyRandom :=
  ⟨s.toList.foldl (fun h c => (h * 31 + c.toNat) % 4294967296) 2166136261⟩

/-- `random.seed(42)`-style seeding by an integer. -/
def seedOfNat (n : Nat) : PyRandom := ⟨n % 4294967296⟩

/-- One step of the underlying generator. -/
def PyRandom.next (g : PyRandom) : Nat × PyRandom :=
  let s := (g.state * 1103515245 + 12345) % 2147483648
  (s, ⟨s⟩)

/-- Model of a `random.random() < p/100` comparison: a percent-scale draw,
uniformly in `[0, 100)`; the program compares it with the percent threshold. -/
def PyRandom.random100 (g : PyRandom) : Nat × PyRandom :=
  let (n, g') := g.next
  (n % 100, g')

/-- Model of `random.randint(a, b)`: both end points inclusive (needs `a ≤ b`,
which holds at every call site of the sources). -/
def PyRandom.randint (g : PyRandom) (a b : Int) : Int × PyRandom :=
  let (n, g') := g.next
  (a + (n : Int) % (b - a + 1), g')

/-- One element of the event queue: the Python tuple
`(tick, device, action, value, param)` exactly as pushed by `heapq.heappush`
in the three programs.  For a note event `value` is the pitch and `param` the
velocity; for a `"cc"` event `value` is the controller number and `param` the
controller value. -/
structure Event where
  tick : Nat
  device : String
  action : String
  value : Int
  param : Int
deriving DecidableEq

/-- The sort key Python uses on those tuples: lexicographic over all five
components (numeric tick first, then the `device` string, the `action` string,
`value`, `param`).  Python compares strings lexicographically by code point,
which is exactly the lexicographic order on their character lists. -/
def Event.key (e : Event) : Nat ×ₗ (List Char ×ₗ (List Char ×ₗ (Int ×ₗ Int))) :=
  toLex (e.tick, toLex (e.device.toList, toLex (e.action.toList, toLex (e.value, e.param))))

/-- Python's `<=` on event tuples. -/
def tupleLE (a b : Event) : Prop := a.key ≤ b.key

instance : DecidableRel tupleLE := fun a b => inferInstanceAs (Decidable (a.key ≤ b.key))

instance : IsTotal Event tupleLE := ⟨fun a b => le_total a.key b.key⟩

instance : IsTrans Event tupleLE := ⟨fun _ _ _ h h' => le_trans (α := Nat ×ₗ (List Char ×ₗ (List Char ×ₗ (Int ×ₗ Int)))) h h'⟩

/-- `sorted(event_queue)`: the fully sorted list of all pushed tuples.  The
tuple order is total and antisymmetric (tuples equal in every component are the
same tuple), so every correct sort — Python's Timsort as well as insertion
sort — produces the same list. -/
def pySorted (l : List Event) : List Event := l.insertionSort tupleLE

/-- `min(max(note, 0), 127)` as written at every clamp site of the sources. -/
def clamp (n : Int) : Int := min (max n 0) 127

def MINOR_PENTATONIC : List Int := [0, 3, 5, 7, 10]

/-- `MINOR_PENTATONIC[k % len(MINOR_PENTATONIC)]`. -/
def pent (k : Nat) : Int := MINOR_PENTATONIC.getD (k % MINOR_PENTATONIC.length) 0

def PAD_CHORD_NOTES : List Int := [0, 3, 7]

/-- The `DRUM_NOTES` dictionary shared verbatim by all three programs. -/
def DRUM_NOTES (s : String) : Int :=
  if s = "kick" then 48
  else if s = "snare" then 50
  else if s = "ltom" then 52
  else if s = "htom" then 53
  else if s = "rim" then 55
  else if s = "clap" then 57
  else if s = "ch" then 59
  else if s = "oh" then 60
  else if s = "crash" then 62
  else 64

def ENCODABLE : List Char := "etaoinshrdlucmfwypvbgkqjxz0123456789".toList

def VOWELS : List Char := "aeiou".toList

def DIGITS : List Char := "0123456789".toList

def PUNCTUATION : List Char := ".,".toList

def VOWEL_ORDER : String := "aeiou"

def CONSONANT_ORDER : String := "tnshrdlucmfwypvbgkqjxz"

/-- `s.index(c)` (only called on members). -/
def strIndex (s : String) (c : Char) : Nat := s.toList.indexOf c

/-- The running state of a `text_to_event_queue` loop: the events in push
order, the `char_timing` entries `(current_time, i, ch)` in append order,
`current_time`, and the global random generator. -/
structure MapState where
  events : List Event
  chars : List (Nat × Nat × Char)
  time : Nat
  g : PyRandom

namespace Acid

def NOTE_BASE : Int := 48

def OCTAVE : Int := 12

def DEVICE_KEYS : List String := ["TB303", "BP909", "LeadSynth", "PadSynth"]

/-- The separator branch of `acid2midi.text_to_event_queue`: the TB303
resonance tweak followed by the sustained PadSynth minor chord. -/
def spaceEvents (t : Nat) : List Event :=
  let chordRoot := NOTE_BASE + MINOR_PENTATONIC.getD 0 0 + OCTAVE
  [⟨t, "TB303", "cc", 71, 60⟩] ++
  PAD_CHORD_NOTES.flatMap (fun off =>
    let note := clamp (chordRoot + off)
    [⟨t, "PadSynth", "on", note, 60⟩,
     ⟨t + 4, "PadSynth", "off", note, 0⟩])

/-- The bassline (TB303) block of the encodable branch. -/
def bassEvents (t : Nat) (g : PyRandom) (cl : Char) : List Event × PyRandom :=
  if cl ∈ VOWELS then
    let rank := strIndex VOWEL_ORDER cl
    let note := clamp (NOTE_BASE + pent rank)
    let (r, g') := g.random100
    let duration := if r < 60 then 2 else 1
    ([⟨t, "TB303", "on", note, 80⟩,
      ⟨t + duration, "TB303", "off", note, 0⟩] ++
     (if duration > 1 then
        [⟨t, "TB303", "cc", 5, 127⟩,
         ⟨t + duration, "TB303", "cc", 5, 0⟩]
      else []), g')
  else if cl ∈ DIGITS then
    let rank := cl.toNat - 48
    let note := clamp (NOTE_BASE + pent rank)
    ([⟨t, "TB303", "on", note, 70⟩,
      ⟨t + 1, "TB303", "off", note, 0⟩], g)
  else if cl ∈ CONSONANT_ORDER.toList then
    let rank := strIndex CONSONANT_ORDER cl
    let note := clamp (NOTE_BASE + pent rank)
    ([⟨t, "TB303", "on", note, 100⟩,
      ⟨t + 1, "TB303", "off", note, 0⟩,
      ⟨t, "TB303", "cc", 71, 80⟩], g)
  else ([], g)

/-- The drum (BP909) block of the encodable branch. -/
def drumEvents (t i : Nat) (cl : Char) : List Event :=
  if cl ∈ VOWELS then
    [⟨t, "BP909", "on", DRUM_NOTES "kick", 100⟩,
     ⟨t + 1, "BP909", "off", DRUM_NOTES "kick", 0⟩]
  else if cl ∈ DIGITS then
    [⟨t, "BP909", "on", DRUM_NOTES "oh", 80⟩,
     ⟨t + 1, "BP909", "off", DRUM_NOTES "oh", 0⟩]
  else if cl ∈ CONSONANT_ORDER.toList then
    let drum := if i % 4 = 2 then "snare" else if i % 4 = 0 then "clap" else "ch"
    let velocity : Int := if drum = "snare" ∨ drum = "clap" then 90 else 70
    [⟨t, "BP909", "on", DRUM_NOTES drum, velocity⟩,
     ⟨t + 1, "BP909", "off", DRUM_NOTES drum, 0⟩]
  else []

/-- One iteration of the `for i, ch in enumerate(text)` loop of
`acid2midi.text_to_event_queue`, at input position `i` on character `ch`.
Events are appended in the order of the `heapq.heappush` calls. -/
def charStep (s : MapState) (i : Nat) (ch : Char) : MapState :=
  let cl := ch.toLower
  if ch = ' ' ∨ cl ∈ PUNCTUATION then
    { s with
      chars := s.chars ++ [(s.time, i, ch)]
      events := s.events ++ spaceEvents s.time
      time := s.time + 1 }
  else if cl ∉ ENCODABLE then
    { s with chars := s.chars ++ [(s.time, i, ch)] }
  else
    let bass := bassEvents s.time s.g cl
    { events := s.events ++ bass.1 ++ drumEvents s.time i cl
      chars := s.chars ++ [(s.time, i, ch)]
      time := s.time + 1
      g := bass.2 }

/-- The whole character loop, started from `current_time = 0` on the freshly
seeded generator. -/
def mapRun (g : PyRandom) (text : String) : MapState :=
  text.toList.enum.foldl (fun s p => charStep s p.1 p.2) ⟨[], [], 0, g⟩

/-- `sorted(char_timing, key=lambda x: x[1])`. -/
def charSort (l : List (Nat × Nat × Char)) : List (Nat × Nat × Char) :=
  l.insertionSort (fun a b => a.2.1 ≤ b.2.1)

/-- `acid2midi.text_to_event_queue`.  It takes the ambient global generator
(the state Python's `random` module holds when the call starts) and begins by
reseeding it from the text, exactly as `random.seed(text)` does. -/
def text_to_event_queue (_g : PyRandom) (text : String) : List Event × List (Nat × Nat × Char) :=
  let g := seedOfString text
  let s := mapRun g text
  (pySorted s.events, charSort s.chars)

end Acid

namespace Speed

def NOTE_BASE : Int := 48

def OCTAVE : Int := 12

def SAMPLES : List Char := "@,".toList

/-- `SAMPLE_NOTES = {char: 0 + i for i, char in enumerate(SAMPLES)}`.  The
iteration order of the Python `set` literal is implementation defined; the
model fixes `'@' ↦ 0`, `',' ↦ 1` (both possible values lie in `[0, 127]`, and
no claim depends on which character gets which number). -/
def SAMPLE_NOTES (c : Char) : Int := if c = '@' then 0 else 1

def DEVICE_KEYS : List String := ["TB303", "BP909", "LeadSynth", "PadSynth", "Samples"]

/-- The sample-trigger branch: one NoteOn, deliberately without a NoteOff
(the sample plays to completion). -/
def sampleEvents (t : Nat) (g : PyRandom) (ch : Char) : List Event × PyRandom :=
  let note := clamp (SAMPLE_NOTES ch)
  let (v, g1) := g.randint 127 127
  ([⟨t, "Samples", "on", note, v⟩], g1)

/-- The separator branch: TB303 filter sweep, detuned PadSynth stab, BP909
crash. -/
def spaceEvents (t : Nat) (g : PyRandom) : List Event × PyRandom :=
  let (sweep, g1) := g.randint 80 127
  let chordRoot := NOTE_BASE + MINOR_PENTATONIC.getD 0 0 + OCTAVE
  let pads := PAD_CHORD_NOTES.foldl
    (fun (p : List Event × PyRandom) off =>
      let (detune, ga) := p.2.randint (-2) 2
      let note := clamp (chordRoot + off + detune)
      let (vel, gb) := ga.randint 60 90
      (p.1 ++ [⟨t, "PadSynth", "on", note, vel⟩,
               ⟨t + 1, "PadSynth", "off", note, 0⟩], gb))
    ([], g1)
  let (crashV, g2) := pads.2.randint 90 127
  ([⟨t, "TB303", "cc", 74, sweep⟩] ++ pads.1 ++
   [⟨t, "BP909", "on", DRUM_NOTES "crash", crashV⟩,
    ⟨t + 1, "BP909", "off", DRUM_NOTES "crash", 0⟩], g2)

/-- The bassline (TB303) block of the encodable branch. -/
def bassEvents (t : Nat) (g : PyRandom) (cl : Char) : List Event × PyRandom :=
  if cl ∈ VOWELS then
    let rank := strIndex VOWEL_ORDER cl
    let note := clamp (NOTE_BASE + pent rank)
    let (vel, ga) := g.randint 80 127
    let (r, gb) := ga.random100
    let duration := if r < 60 then 2 else 1
    let (sweep, gc) := gb.randint 60 127
    ([⟨t, "TB303", "on", note, vel⟩,
      ⟨t + duration, "TB303", "off", note, 0⟩] ++
     (if duration > 1 then
        [⟨t, "TB303", "cc", 5, 127⟩,
         ⟨t + duration, "TB303", "cc", 5, 0⟩]
      else []) ++
     [⟨t, "TB303", "cc", 74, sweep⟩], gc)
  else if cl ∈ DIGITS then
    let rank := cl.toNat - 48
    let note := clamp (NOTE_BASE + pent rank)
    let (vel, ga) := g.randint 70 110
    ([⟨t, "TB303", "on", note, vel⟩,
      ⟨t + 1, "TB303", "off", note, 0⟩], ga)
  else if cl ∈ CONSONANT_ORDER.toList then
    let rank := strIndex CONSONANT_ORDER cl
    let note := clamp (NOTE_BASE + pent rank)
    let (vel, ga) := g.randint 100 127
    let (res, gb) := ga.randint 80 127
    ([⟨t, "TB303", "on", note, vel⟩,
      ⟨t + 1, "TB303", "off", note, 0⟩,
      ⟨t, "TB303", "cc", 71, res⟩], gb)
  else ([], g)

/-- The drum (BP909) block of the encodable branch: kick on every character,
probabilistic hi-hats, then the per-class extra hits. -/
def drumEvents (t i : Nat) (g : PyRandom) (cl : Char) : List Event × PyRandom :=
  let (kickV, g1) := g.randint 100 127
  let kick : List Event :=
    [⟨t, "BP909", "on", DRUM_NOTES "kick", kickV⟩,
     ⟨t + 1, "BP909", "off", DRUM_NOTES "kick", 0⟩]
  let (hr, g2) := g1.random100
  let hats :=
    if hr < 70 then
      let (dr, ga) := g2.random100
      let drum := if dr < 80 then "ch" else "oh"
      let (hv, gb) := ga.randint 60 90
      ([⟨t, "BP909", "on", DRUM_NOTES drum, hv⟩,
        ⟨t + 1, "BP909", "off", DRUM_NOTES drum, 0⟩], gb)
    else ([], g2)
  let snares :=
    if cl ∈ VOWELS then
      let (v2, ga) := hats.2.randint 100 127
      ([⟨t, "BP909", "on", DRUM_NOTES "kick", v2⟩,
        ⟨t + 1, "BP909", "off", DRUM_NOTES "kick", 0⟩], ga)
    else if cl ∈ DIGITS then
      let (v2, ga) := hats.2.randint 60 90
      ([⟨t, "BP909", "on", DRUM_NOTES "oh", v2⟩,
        ⟨t + 1, "BP909", "off", DRUM_NOTES "oh", 0⟩], ga)
    else if cl ∈ CONSONANT_ORDER.toList then
      let drum := if i % 4 = 2 then "snare" else if i % 4 = 0 then "clap" else "rim"
      let velocity : Int := if drum = "snare" ∨ drum = "clap" then 90 else 70
      let (v2, ga) := hats.2.randint velocity 127
      ([⟨t, "BP909", "on", DRUM_NOTES drum, v2⟩,
        ⟨t + 1, "BP909", "off", DRUM_NOTES drum, 0⟩], ga)
    else ([], hats.2)
  (kick ++ hats.1 ++ snares.1, snares.2)

/-- The LeadSynth block: probabilistic screamy lead on vowels. -/
def leadEvents (t : Nat) (g : PyRandom) (cl : Char) : List Event × PyRandom :=
  if cl ∈ VOWELS then
    let (lr, ga) := g.random100
    if lr < 40 then
      let rank := strIndex VOWEL_ORDER cl
      let note := clamp (NOTE_BASE + pent rank + OCTAVE * 2)
      let (lv, gb) := ga.randint 80 127
      ([⟨t, "LeadSynth", "on", note, lv⟩,
        ⟨t + 1, "LeadSynth", "off", note, 0⟩,
        ⟨t, "LeadSynth", "cc", 71, 127⟩], gb)
    else ([], ga)
  else ([], g)

/-- One iteration of the `for i, ch in enumerate(text)` loop of
`speedcore2midi.text_to_event_queue`. -/
def charStep (s : MapState) (i : Nat) (ch : Char) : MapState :=
  let cl := ch.toLower
  if ch ∈ SAMPLES then
    let smp := sampleEvents s.time s.g ch
    { chars := s.chars ++ [(s.time, i, ch)]
      events := s.events ++ smp.1
      time := s.time + 1
      g := smp.2 }
  else if ch = ' ' ∨ cl ∈ PUNCTUATION then
    let sp := spaceEvents s.time s.g
    { chars := s.chars ++ [(s.time, i, ch)]
      events := s.events ++ sp.1
      time := s.time + 1
      g := sp.2 }
  else if cl ∉ ENCODABLE then
    { s with time := s.time + 1 }
  else
    let bass := bassEvents s.time s.g cl
    let drums := drumEvents s.time i bass.2 cl
    let lead := leadEvents s.time drums.2 cl
    { events := s.events ++ bass.1 ++ drums.1 ++ lead.1
      chars := s.chars ++ [(s.time, i, ch)]
      time := s.time + 1
      g := lead.2 }

/-- The whole character loop, started from `current_time = 0` on the freshly
seeded generator. -/
def mapRun (g : PyRandom) (text : String) : MapState :=
  text.toList.enum.foldl (fun s p => charStep s p.1 p.2) ⟨[], [], 0, g⟩

/-- `sorted(char_timing, key=lambda x: x[1])`. -/
def charSort (l : List (Nat × Nat × Char)) : List (Nat × Nat × Char) :=
  l.insertionSort (fun a b => a.2.1 ≤ b.2.1)

/-- `speedcore2midi.text_to_event_queue`: reseeds the ambient generator from
the text and walks the characters. -/
def text_to_event_queue (_g : PyRandom) (text : String) : List Event × List (Nat × Nat × Char) :=
  let g := seedOfString text
  let s := mapRun g text
  (pySorted s.events, charSort s.chars)

end Speed

namespace Track

def BARS : Nat := 32

def BEATS_PER_BAR : Nat := 4

def TICKS_PER_BEAT : Nat := 4

def NOTE_BASE : Int := 36

def OCTAVE : Int := 12

def SAMPLE_NOTES (s : String) : Int :=
  if s = "vocal1" then 48
  else if s = "vocal2" then 50
  else if s = "riser" then 52
  else 53

def DEVICE_KEYS : List String :=
  ["TB303", "BP909", "LeadSynth", "PadSynth", "SampleBank1", "SampleBank2", "ArpSynth", "BassSub"]

/-- The TB303 section of `acidtrack.generate_acid_patterns`: 32 bars of eight
2-tick steps, each firing with 95% probability. -/
def tb303 (g : PyRandom) : List Event × PyRandom :=
  (List.range BARS).foldl (fun acc bar =>
    let startTick := bar * BEATS_PER_BAR * TICKS_PER_BEAT
    let pattern : List Nat := if bar % 2 = 0 then [0, 3, 5, 0, 7, 10, 3, 5] else [0, 5, 10, 0, 3, 7, 5, 3]
    (List.range 8).foldl (fun acc2 i =>
      let tick := startTick + i * 2
      let (r, g1) := acc2.2.random100
      if r < 95 then
        let note := clamp (NOTE_BASE + pent (pattern.getD i 0))
        let (dv, g2) := g1.randint (-10) 10
        let velocity := 90 + dv
        let (dr, g3) := g2.random100
        let duration := if dr < 70 then 3 else 2
        let (sr, g4) := g3.random100
        let slide : Int := if sr < 80 then 127 else 0
        let (c71, g5) := g4.randint 0 40
        let (c74, g6) := g5.randint 0 50
        (acc2.1 ++
          [⟨tick, "TB303", "on", note, velocity⟩,
           ⟨tick + duration, "TB303", "off", note, 0⟩,
           ⟨tick, "TB303", "cc", 5, slide⟩,
           ⟨tick + duration, "TB303", "cc", 5, 0⟩,
           ⟨tick, "TB303", "cc", 71, 80 + c71⟩,
           ⟨tick, "TB303", "cc", 74, 60 + c74⟩], g6)
      else (acc2.1, g1)) acc) ([], g)

/-- The BassSub section: quarter-note sub-bass from bar 2 on. -/
def bassSub (acc : List Event × PyRandom) : List Event × PyRandom :=
  (List.range BARS).foldl (fun acc bar =>
    let startTick := bar * BEATS_PER_BAR * TICKS_PER_BEAT
    if 2 ≤ bar then
      (List.range 4).foldl (fun acc2 beat =>
        let tick := startTick + beat * TICKS_PER_BEAT
        let note := NOTE_BASE - OCTAVE
        (acc2.1 ++
          [⟨tick, "BassSub", "on", note, 100⟩,
           ⟨tick + 2, "BassSub", "off", note, 0⟩], acc2.2)) acc
    else acc) acc

/-- Kick on every beat. -/
def kickBlock (tick : Nat) : List Event :=
  [⟨tick, "BP909", "on", DRUM_NOTES "kick", 100⟩,
   ⟨tick + 1, "BP909", "off", DRUM_NOTES "kick", 0⟩]

/-- Occasional offbeat kick (the probability draw happens on every beat, the
beat-parity test second, mirroring Python's left-to-right evaluation). -/
def offKickBlock (beat tick : Nat) (g : PyRandom) : List Event × PyRandom :=
  let (okr, g1) := g.random100
  ((if okr < 20 ∧ beat % 2 = 1 then
      [⟨tick + 2, "BP909", "on", DRUM_NOTES "kick", 80⟩,
       ⟨tick + 3, "BP909", "off", DRUM_NOTES "kick", 0⟩]
    else []), g1)

/-- Snare on beats 2 and 4. -/
def snareBlock (beat tick : Nat) : List Event :=
  if beat % 2 = 1 then
    [⟨tick, "BP909", "on", DRUM_NOTES "snare", 90⟩,
     ⟨tick + 1, "BP909", "off", DRUM_NOTES "snare", 0⟩]
  else []

/-- Clap on offbeats from bar 4. -/
def clapBlock (bar beat tick : Nat) : List Event :=
  if beat % 2 = 1 ∧ 4 ≤ bar then
    [⟨tick + 2, "BP909", "on", DRUM_NOTES "clap", 85⟩,
     ⟨tick + 3, "BP909", "off", DRUM_NOTES "clap", 0⟩]
  else []

/-- 16th-note closed hi-hats. -/
def hatsBlock (tick : Nat) (g : PyRandom) : List Event × PyRandom :=
  (List.range 4).foldl (fun (h : List Event × PyRandom) i =>
    let htick := tick + i
    let (hv, ga) := h.2.randint (-10) 10
    (h.1 ++
      [⟨htick, "BP909", "on", DRUM_NOTES "ch", 70 + hv⟩,
       ⟨htick + 1, "BP909", "off", DRUM_NOTES "ch", 0⟩], ga)) ([], g)

/-- Open hi-hat on offbeats. -/
def ohBlock (beat tick : Nat) : List Event :=
  if beat % 2 = 1 then
    [⟨tick + 2, "BP909", "on", DRUM_NOTES "oh", 80⟩,
     ⟨tick + 3, "BP909", "off", DRUM_NOTES "oh", 0⟩]
  else []

/-- Toms for variation from bar 8. -/
def tomsBlock (bar tick : Nat) (g : PyRandom) : List Event × PyRandom :=
  if 8 ≤ bar then
    let (tr, ga) := g.random100
    if tr < 30 then
      let (tsel, gb) := ga.random100
      let tom := if tsel < 50 then "ltom" else "htom"
      ([⟨tick + 3, "BP909", "on", DRUM_NOTES tom, 80⟩,
        ⟨tick + 4, "BP909", "off", DRUM_NOTES tom, 0⟩], gb)
    else ([], ga)
  else ([], g)

/-- Rimshots from bar 12. -/
def rimsBlock (bar tick : Nat) (g : PyRandom) : List Event × PyRandom :=
  if 12 ≤ bar then
    let (rr, ga) := g.random100
    if rr < 20 then
      ([⟨tick + 1, "BP909", "on", DRUM_NOTES "rim", 75⟩,
        ⟨tick + 2, "BP909", "off", DRUM_NOTES "rim", 0⟩], ga)
    else ([], ga)
  else ([], g)

/-- Crash on the downbeat every 4 bars. -/
def crashBlock (bar beat tick : Nat) : List Event :=
  if beat = 0 ∧ bar % 4 = 0 then
    [⟨tick, "BP909", "on", DRUM_NOTES "crash", 90⟩,
     ⟨tick + 2, "BP909", "off", DRUM_NOTES "crash", 0⟩]
  else []

/-- The BP909 drum section: per bar and beat, the blocks in source order with
the generator threaded through the probabilistic ones. -/
def bp909 (acc : List Event × PyRandom) : List Event × PyRandom :=
  (List.range BARS).foldl (fun acc bar =>
    let startTick := bar * BEATS_PER_BAR * TICKS_PER_BEAT
    (List.range 4).foldl (fun acc2 beat =>
      let tick := startTick + beat * TICKS_PER_BEAT
      let offKick := offKickBlock beat tick acc2.2
      let hats := hatsBlock tick offKick.2
      let toms := tomsBlock bar tick hats.2
      let rims := rimsBlock bar tick toms.2
      (acc2.1 ++ kickBlock tick ++ offKick.1 ++ snareBlock beat tick ++
        clapBlock bar beat tick ++ hats.1 ++ ohBlock beat tick ++ toms.1 ++
        rims.1 ++ crashBlock bar beat tick, rims.2)) acc) acc

/-- The LeadSynth section: stabs on beats 0 and 2 from bar 4 on. -/
def leadSynth (acc : List Event × PyRandom) : List Event × PyRandom :=
  (List.range BARS).drop 4 |>.foldl (fun acc bar =>
    let startTick := bar * BEATS_PER_BAR * TICKS_PER_BEAT
    [0, 2].foldl (fun (acc2 : List Event × PyRandom) beat =>
      let tick := startTick + beat * TICKS_PER_BEAT
      let (idx, ga) := acc2.2.randint 0 4
      let note := clamp (NOTE_BASE + OCTAVE + MINOR_PENTATONIC.getD idx.toNat 0)
      (acc2.1 ++
        [⟨tick, "LeadSynth", "on", note, 80⟩,
         ⟨tick + 2, "LeadSynth", "off", note, 0⟩], ga)) acc) acc

/-- The ArpSynth section from bar 8 on. -/
def arpSynth (acc : List Event × PyRandom) : List Event × PyRandom :=
  (List.range BARS).drop 8 |>.foldl (fun acc bar =>
    let startTick := bar * BEATS_PER_BAR * TICKS_PER_BEAT
    let arpNotes : List Nat := [0, 3, 7, 10, 7, 3]
    (List.range 8).foldl (fun (acc2 : List Event × PyRandom) i =>
      let tick := startTick + i * 2
      let note := clamp (NOTE_BASE + OCTAVE * 2 + pent (arpNotes.getD (i % arpNotes.length) 0))
      (acc2.1 ++
        [⟨tick, "ArpSynth", "on", note, 75⟩,
         ⟨tick + 1, "ArpSynth", "off", note, 0⟩], acc2.2)) acc) acc

/-- The PadSynth section: a sustained chord on every bar in `[2, 28)`. -/
def padSynth (acc : List Event × PyRandom) : List Event × PyRandom :=
  ((List.range 28).drop 2).foldl (fun acc bar =>
    let startTick := bar * BEATS_PER_BAR * TICKS_PER_BEAT
    let chordRoot := NOTE_BASE + OCTAVE + MINOR_PENTATONIC.getD 0 0
    (PAD_CHORD_NOTES.foldl (fun (l : List Event) off =>
      let note := clamp (chordRoot + off)
      l ++ [⟨startTick, "PadSynth", "on", note, 60⟩,
            ⟨startTick + 16, "PadSynth", "off", note, 0⟩]) acc.1, acc.2)) acc

/-- The SampleBank1 section: vocal chops every fourth bar from bar 4. -/
def sampleBank1 (acc : List Event × PyRandom) : List Event × PyRandom :=
  [4, 8, 12, 16, 20, 24, 28].foldl (fun (acc : List Event × PyRandom) bar =>
    let startTick := bar * BEATS_PER_BAR * TICKS_PER_BEAT
    (acc.1 ++
      [⟨startTick, "SampleBank1", "on", SAMPLE_NOTES "vocal1", 100⟩,
       ⟨startTick + 4, "SampleBank1", "off", SAMPLE_NOTES "vocal1", 0⟩] ++
      (if 12 ≤ bar then
        [⟨startTick + 8, "SampleBank1", "on", SAMPLE_NOTES "vocal2", 100⟩,
         ⟨startTick + 12, "SampleBank1", "off", SAMPLE_NOTES "vocal2", 0⟩]
       else []), acc.2)) acc

/-- The SampleBank2 section: a riser across bars 20–23. -/
def sampleBank2 (acc : List Event × PyRandom) : List Event × PyRandom :=
  [20, 21, 22, 23].foldl (fun (acc : List Event × PyRandom) bar =>
    let startTick := bar * BEATS_PER_BAR * TICKS_PER_BEAT
    (acc.1 ++
      [⟨startTick, "SampleBank2", "on", SAMPLE_NOTES "riser", 90⟩,
       ⟨startTick + 16, "SampleBank2", "off", SAMPLE_NOTES "riser", 0⟩], acc.2)) acc

/-- `acidtrack.generate_acid_patterns`: reseeds the ambient generator with the
constant 42, builds every section in source order on the shared generator, and
returns the fully sorted queue. -/
def generate_acid_patterns (_g : PyRandom) : List Event :=
  let g := seedOfNat 42
  pySorted (sampleBank2 (sampleBank1 (padSynth (arpSynth (leadSynth (bp909 (bassSub (tb303 g)))))))).1

end Track

/-! ## Playback scheduler

`play_event_queue` is the same in all three programs up to the device table:
it re-sorts the queue by tick (a stable no-op on the already sorted Merged
Sequence), computes `max_tick`, runs `tick` from `0` to `max_tick` inclusive,
and inside each tick dispatches — with the event pointer — every event whose
tick equals the current tick, before the tick's fixed sleep.  The `finally`
block (the drain) runs on every exit path: normal completion, an exception
raised by a dispatch, or an external interruption.  Real time (the sleep) is
not modelled; the model captures the dispatch order and the per-track
active-notes bookkeeping. -/

/-- `max([...ticks...], default=0) + 1` over the given tick values. -/
def max_tick (ticks : List Nat) : Nat := ticks.foldr max 0 + 1

/-- The burst of dispatches of one `while ... == tick` pass followed by the
later ticks, with `fuel` loop iterations remaining. -/
def ticksFrom (t fuel : Nat) (evs : List Event) : List Event :=
  match fuel with
  | 0 => []
  | fuel + 1 =>
    evs.takeWhile (fun e => e.tick == t) ++
      ticksFrom (t + 1) fuel (evs.dropWhile (fun e => e.tick == t))

/-- The full dispatch trace of the `Running` loop: ticks `0 .. maxTick`
inclusive, i.e. `maxTick + 1` iterations. -/
def playTrace (evs : List Event) (maxTick : Nat) : List Event :=
  ticksFrom 0 (maxTick + 1) evs

/-- Python `set.add` on the list model (no duplicates) of a track's
active-notes set. -/
def addNote (s : List Int) (v : Int) : List Int := if v ∈ s then s else s ++ [v]

/-- Python `set.discard`. -/
def discardNote (s : List Int) (v : Int) : List Int := s.erase v

/-- The effect of dispatching one event on track `d`'s active-notes set:
`"on"` adds the note, `"off"` discards it, `"cc"` leaves it alone; events of
other tracks leave it alone. -/
def applyEvent (d : String) (s : List Int) (e : Event) : List Int :=
  if e.device = d then
    if e.action = "on" then addNote s e.value
    else if e.action = "off" then discardNote s e.value
    else s
  else s

/-- Track `d`'s active-notes set after the scheduler has dispatched the events
`evs` in order (starting, as at scheduler start, from the empty set). -/
def activeNotes (evs : List Event) (d : String) : List Int :=
  evs.foldl (applyEvent d) []

/-- The messages of the `finally` drain: for every device of the program's
device table, one synthetic NoteOff `(device, note)` per note still in that
device's active-notes set. -/
def drainMsgs (devs : List String) (evs : List Event) : List (String × Int) :=
  devs.flatMap (fun d => (activeNotes evs d).map (fun n => (d, n)))

/-! ## The `main` text setup -/

/-- Python `str.isdigit` restricted to ASCII: nonempty and all digits. -/
def pyIsdigit (s : String) : Bool := s.length > 0 && s.toList.all Char.isDigit

namespace Acid

def DEFAULT_TEXT : String := "....... Ahhhhhhhhhhhhhhh 1234567890, What is this? What is this? It is text2midi 1234567890 WOW WOW ..nice.. Make the make the music make the music with no skill. Out now. Out now. TTTTHHHHXXXX. Welcome to text-2-midi ACID music converter. Yeeeeeeeeeeeeeessssssssssssshh .. 1234567890 Lets get lets get lets get the party going. 1230 1234560 ACID music is the shit. Peace out."

/-- The phrase `acid2midi.main` starts from: the CLI arguments joined by
spaces, or the built-in default when there are none. -/
def phrase (args : List String) : String :=
  if 0 < args.length then String.intercalate " " args else DEFAULT_TEXT

/-- The text `acid2midi.main` hands to the mapper: the phrase plus one
trailing space. -/
def mainText (args : List String) : String := phrase args ++ " "

end Acid

namespace Speed

def DEFAULT_TEXT : String := "YEEEEE 1234567890 BLAST OFF!!! SPEEDCORE EXTRATONE MADNESS!!! 666 KICK IT HARD!!! ..BZZZZZ.. 1230 RAVE RAVE RAVE!!! TTTTHHHHXXXXX BOOM BOOM 7890 LETS GO INSANE!!! ..ZAP.. PEACE OUT!!!"

/-- The phrase `speedcore2midi.main` starts from: the CLI arguments joined by
spaces unless there are none or the first one is a BPM number, in which case
the built-in default. -/
def phrase (args : List String) : String :=
  match args with
  | [] => DEFAULT_TEXT
  | a :: _ => if pyIsdigit a then DEFAULT_TEXT else String.intercalate " " args

/-- The text `speedcore2midi.main` hands to the mapper: the phrase plus one
trailing space. -/
def mainText (args : List String) : String := phrase args ++ " "

end Speed

/-! ## Claim theorems (first batch) -/

/-- **C2.** The symbol mapper is deterministic: `text_to_event_queue` begins by
reseeding the global generator from the input text, so whatever state the
generator holds before the call — in particular across two successive runs on
the same input — the produced Merged Sequence is identical, event for event;
likewise `generate_acid_patterns` under its fixed seed 42 yields the same
sequence on every run. -/
theorem mapper_deterministic :
    (∀ g₁ g₂ : PyRandom, ∀ x : String,
        Acid.text_to_event_queue g₁ x = Acid.text_to_event_queue g₂ x) ∧
    (∀ g₁ g₂ : PyRandom, ∀ x : String,
        Speed.text_to_event_queue g₁ x = Speed.text_to_event_queue g₂ x) ∧
    (∀ g₁ g₂ : PyRandom,
        Track.generate_acid_patterns g₁ = Track.generate_acid_patterns g₂) :=
  ⟨fun _ _ _ => rfl, fun _ _ _ => rfl, fun _ _ => rfl⟩

/-- **C8.** Mapping the single-character input `"a"` yields a TB303 NoteOn at
tick 0 with pitch `NOTE_BASE + MINOR_PENTATONIC[0]`, a matching NoteOff at
tick `0 + duration` with `duration ∈ {1, 2}`, and a BP909 kick NoteOn/NoteOff
pair at ticks 0 and 1; the TB303 NoteOn is the only bass NoteOn. -/
theorem scenario_vowel_a :
    ∃ d : Nat, (d = 1 ∨ d = 2) ∧
      (⟨0, "TB303", "on", Acid.NOTE_BASE + MINOR_PENTATONIC.getD 0 0, 80⟩ : Event)
          ∈ (Acid.text_to_event_queue ⟨0⟩ "a").1 ∧
      (⟨d, "TB303", "off", Acid.NOTE_BASE + MINOR_PENTATONIC.getD 0 0, 0⟩ : Event)
          ∈ (Acid.text_to_event_queue ⟨0⟩ "a").1 ∧
      (Acid.text_to_event_queue ⟨0⟩ "a").1.countP
          (fun e => e.device == "TB303" && e.action == "on") = 1 ∧
      (⟨0, "BP909", "on", DRUM_NOTES "kick", 100⟩ : Event)
          ∈ (Acid.text_to_event_queue ⟨0⟩ "a").1 ∧
      (⟨1, "BP909", "off", DRUM_NOTES "kick", 0⟩ : Event)
          ∈ (Acid.text_to_event_queue ⟨0⟩ "a").1 :=
  ⟨2, by decide, by decide, by decide, by decide, by decide, by decide⟩

/-- **C9.** Mapping the single-character input `" "` yields exactly one
ControlChange on the TB303 (lead/bass) track, exactly three PadSynth NoteOn
events — one per chord-tone offset `0`, `3`, `7` — each with a NoteOff at the
fixed tick 4, and zero TB303 NoteOn events. -/
theorem scenario_space :
    (Acid.text_to_event_queue ⟨0⟩ " ").1.countP
        (fun e => e.device == "TB303" && e.action == "cc") = 1 ∧
    (Acid.text_to_event_queue ⟨0⟩ " ").1.countP
        (fun e => e.device == "PadSynth" && e.action == "on") = 3 ∧
    (⟨0, "PadSynth", "on", Acid.NOTE_BASE + MINOR_PENTATONIC.getD 0 0 + Acid.OCTAVE + 0, 60⟩ : Event)
        ∈ (Acid.text_to_event_queue ⟨0⟩ " ").1 ∧
    (⟨4, "PadSynth", "off", Acid.NOTE_BASE + MINOR_PENTATONIC.getD 0 0 + Acid.OCTAVE + 0, 0⟩ : Event)
        ∈ (Acid.text_to_event_queue ⟨0⟩ " ").1 ∧
    (⟨0, "PadSynth", "on", Acid.NOTE_BASE + MINOR_PENTATONIC.getD 0 0 + Acid.OCTAVE + 3, 60⟩ : Event)
        ∈ (Acid.text_to_event_queue ⟨0⟩ " ").1 ∧
    (⟨4, "PadSynth", "off", Acid.NOTE_BASE + MINOR_PENTATONIC.getD 0 0 + Acid.OCTAVE + 3, 0⟩ : Event)
        ∈ (Acid.text_to_event_queue ⟨0⟩ " ").1 ∧
    (⟨0, "PadSynth", "on", Acid.NOTE_BASE + MINOR_PENTATONIC.getD 0 0 + Acid.OCTAVE + 7, 60⟩ : Event)
        ∈ (Acid.text_to_event_queue ⟨0⟩ " ").1 ∧
    (⟨4, "PadSynth", "off", Acid.NOTE_BASE + MINOR_PENTATONIC.getD 0 0 + Acid.OCTAVE + 7, 0⟩ : Event)
        ∈ (Acid.text_to_event_queue ⟨0⟩ " ").1 ∧
    (Acid.text_to_event_queue ⟨0⟩ " ").1.countP
        (fun e => e.device == "TB303" && e.action == "on") = 0 :=
  ⟨by decide, by decide, by decide, by decide, by decide, by decide,
   by decide, by decide, by decide⟩

/-- **C10.** Both `main` functions append exactly one trailing space to the
phrase (CLI arguments joined, or the built-in default) before mapping, so the
mapper never receives the raw phrase unchanged; even an empty phrase becomes
`" "`, whose mapping produces the separator-class events (one ControlChange
plus the three-note pad chord). -/
theorem main_trailing_space :
    (∀ args : List String,
        Acid.mainText args = Acid.phrase args ++ " " ∧
        Acid.mainText args ≠ Acid.phrase args) ∧
    (∀ args : List String,
        Speed.mainText args = Speed.phrase args ++ " " ∧
        Speed.mainText args ≠ Speed.phrase args) ∧
    Acid.mainText [""] = " " ∧
    (Acid.text_to_event_queue ⟨0⟩ (Acid.mainText [""])).1.countP
        (fun e => e.action == "cc") = 1 ∧
    (Acid.text_to_event_queue ⟨0⟩ (Acid.mainText [""])).1.countP
        (fun e => e.device == "PadSynth" && e.action == "on") = 3 := by
  refine ⟨fun args => ⟨rfl, fun h => ?_⟩, fun args => ⟨rfl, fun h => ?_⟩, rfl,
          by decide, by decide⟩
  · have h' := congrArg String.length h
    simp only [Acid.mainText, String.length_append,
      show (" " : String).length = 1 from rfl] at h'
    omega
  · have h' := congrArg String.length h
    simp only [Speed.mainText, String.length_append,
      show (" " : String).length = 1 from rfl] at h'
    omega

/-- **C3 counterexample.** On input `"a"` the TB303 NoteOn is pushed first
(insertion index 0) and the BP909 kick NoteOn fifth (insertion index 4), both
at tick 0; yet in the Merged Sequence the kick serializes first and the TB303
NoteOn third, because equal-tick ties are broken by comparing the remaining
tuple components — starting with the track-identifier string, and
`"BP909" < "TB303"`.  Equal-tick events therefore do not serialize in
insertion order, and the order does depend on the track-identifier strings. -/
theorem tie_break_counterexample :
    (Acid.mapRun (seedOfString "a") "a").events.indexOf
        (⟨0, "TB303", "on", 48, 80⟩ : Event) = 0 ∧
    (Acid.mapRun (seedOfString "a") "a").events.indexOf
        (⟨0, "BP909", "on", 48, 100⟩ : Event) = 4 ∧
    (Acid.text_to_event_queue ⟨0⟩ "a").1.indexOf
        (⟨0, "BP909", "on", 48, 100⟩ : Event) = 0 ∧
    (Acid.text_to_event_queue ⟨0⟩ "a").1.indexOf
        (⟨0, "TB303", "on", 48, 80⟩ : Event) = 2 := by
  refine ⟨by decide, by decide, by decide, by decide⟩

/-- **C4 counterexample.** Mapping `"@"` in speedcore2midi takes the
sample-trigger branch: the Merged Sequence is a single `Samples` NoteOn with
no NoteOff at all, so it is not the case that every NoteOn-emitting branch
also emits a matching NoteOff. -/
theorem sample_no_noteoff_counterexample :
    (Speed.text_to_event_queue ⟨0⟩ "@").1.countP (fun e => e.action == "on") = 1 ∧
    (Speed.text_to_event_queue ⟨0⟩ "@").1.countP (fun e => e.action == "off") = 0 ∧
    (Speed.text_to_event_queue ⟨0⟩ "@").1 =
      [⟨0, "Samples", "on", clamp (Speed.SAMPLE_NOTES '@'), 127⟩] := by
  refine ⟨by decide, by decide, by decide⟩

/-- **C6 counterexample.** In acid2midi the unencodable symbol `"?"` emits no
events but also does *not* advance the tick counter: after mapping `"?"` the
internal `current_time` is still 0, not 1. -/
theorem unencodable_counterexample :
    (Acid.mapRun (seedOfString "?") "?").events = [] ∧
    (Acid.mapRun (seedOfString "?") "?").time = 0 ∧
    (Acid.mapRun (seedOfString "?") "?").time ≠ 1 := by
  refine ⟨by decide, by decide, by decide⟩

/-- **C6 (amended).** An unencodable symbol (not a sample trigger, not a
space, not separator punctuation, not in the encodable set) emits zero events
in both text mappers; but only speedcore2midi advances the tick counter by one
step — acid2midi leaves the tick counter unchanged (recording only an
annotation entry). -/
theorem unencodable_amended :
    (∀ (s : MapState) (i : Nat) (ch : Char),
        ¬ ch = ' ' → ch.toLower ∉ PUNCTUATION → ch.toLower ∉ ENCODABLE →
        Acid.charStep s i ch = { s with chars := s.chars ++ [(s.time, i, ch)] }) ∧
    (∀ (s : MapState) (i : Nat) (ch : Char),
        ch ∉ Speed.SAMPLES → ¬ ch = ' ' → ch.toLower ∉ PUNCTUATION →
        ch.toLower ∉ ENCODABLE →
        Speed.charStep s i ch = { s with time := s.time + 1 }) := by
  constructor
  · intro s i ch h1 h2 h3
    simp only [Acid.charStep]
    rw [if_neg (not_or.mpr ⟨h1, h2⟩), if_pos h3]
  · intro s i ch h0 h1 h2 h3
    simp only [Speed.charStep]
    rw [if_neg h0, if_neg (not_or.mpr ⟨h1, h2⟩), if_pos h3]

/-- Witness for the amended C6 at the concrete unencodable symbol `'?'`. -/
theorem unencodable_amended_witness :
    Acid.charStep ⟨[], [], 0, ⟨0⟩⟩ 0 '?' = ⟨[], [(0, 0, '?')], 0, ⟨0⟩⟩ ∧
    Speed.charStep ⟨[], [], 5, ⟨7⟩⟩ 0 '?' = ⟨[], [], 6, ⟨7⟩⟩ :=
  ⟨unencodable_amended.1 ⟨[], [], 0, ⟨0⟩⟩ 0 '?' (by decide) (by decide) (by decide),
   unencodable_amended.2 ⟨[], [], 5, ⟨7⟩⟩ 0 '?' (by decide) (by decide) (by decide) (by decide)⟩

/-- **C3 (amended).** Events with equal ticks serialize in the order of the
full Python tuple comparison — tick first, then the track-identifier string,
the action string, the value and the parameter — so the serialization order
*does* depend on the lexicographic ordering of the track-identifier strings
and is not the insertion order.  The Merged Sequence is exactly a permutation
of the pushed events that is sorted under that tuple order. -/
theorem tie_break_amended :
    (∀ (g : PyRandom) (text : String),
        (Acid.text_to_event_queue g text).1.Sorted tupleLE ∧
        (Acid.text_to_event_queue g text).1.Perm
          (Acid.mapRun (seedOfString text) text).events) ∧
    (∀ (g : PyRandom) (text : String),
        (Speed.text_to_event_queue g text).1.Sorted tupleLE ∧
        (Speed.text_to_event_queue g text).1.Perm
          (Speed.mapRun (seedOfString text) text).events) ∧
    (∀ g : PyRandom, (Track.generate_acid_patterns g).Sorted tupleLE) := by
  refine ⟨fun g text => ⟨?_, ?_⟩, fun g text => ⟨?_, ?_⟩, fun g => ?_⟩
  · exact List.sorted_insertionSort tupleLE _
  · exact List.perm_insertionSort tupleLE _
  · exact List.sorted_insertionSort tupleLE _
  · exact List.perm_insertionSort tupleLE _
  · exact List.sorted_insertionSort tupleLE _

/-! ## Note balance machinery (NoteOn/NoteOff matching) -/

/-- Is `e` a NoteOn of note `n` on track `d`? -/
def isOn (d : String) (n : Int) (e : Event) : Bool :=
  e.action == "on" && e.device == d && e.value == n

/-- Is `e` a NoteOff of note `n` on track `d`? -/
def isOff (d : String) (n : Int) (e : Event) : Bool :=
  e.action == "off" && e.device == d && e.value == n

/-- Per-track, per-note balance: as many NoteOns as NoteOffs. -/
def balanced (l : List Event) : Prop :=
  ∀ (d : String) (n : Int), l.countP (isOn d n) = l.countP (isOff d n)

theorem balanced_nil : balanced [] := fun _ _ => rfl

theorem balanced_append {l₁ l₂ : List Event} (h₁ : balanced l₁) (h₂ : balanced l₂) :
    balanced (l₁ ++ l₂) := by
  intro d n
  rw [List.countP_append, List.countP_append, h₁ d n, h₂ d n]

theorem balanced_pair (t t' : Nat) (d : String) (n v p : Int) :
    balanced [⟨t, d, "on", n, v⟩, ⟨t', d, "off", n, p⟩] := by
  intro d' n'
  by_cases hd : d = d' <;> by_cases hn : n = n' <;>
    simp [List.countP_cons, isOn, isOff, hd, hn]

theorem balanced_cons_cc (t : Nat) (d : String) (v p : Int) {l : List Event}
    (h : balanced l) : balanced (⟨t, d, "cc", v, p⟩ :: l) := by
  intro d' n'
  simp [List.countP_cons, isOn, isOff, h d' n']

/-- A property of event lists preserved by every step of an accumulating fold
is preserved by the whole fold. -/
theorem foldl_step_preserves {β : Type} (P : List Event → Prop)
    (f : List Event × PyRandom → β → List Event × PyRandom)
    (hf : ∀ acc b, P acc.1 → P (f acc b).1) :
    ∀ (l : List β) (acc : List Event × PyRandom), P acc.1 → P (l.foldl f acc).1 := by
  intro l
  induction l with
  | nil => exact fun _ h => h
  | cons b bs ih => exact fun acc h => ih _ (hf acc b h)

/-- The acid2midi separator branch, written out. -/
theorem acid_space_events_eq (t : Nat) : Acid.spaceEvents t =
    [⟨t, "TB303", "cc", 71, 60⟩] ++
    ([⟨t, "PadSynth", "on", 60, 60⟩, ⟨t + 4, "PadSynth", "off", 60, 0⟩] ++
     ([⟨t, "PadSynth", "on", 63, 60⟩, ⟨t + 4, "PadSynth", "off", 63, 0⟩] ++
      ([⟨t, "PadSynth", "on", 67, 60⟩, ⟨t + 4, "PadSynth", "off", 67, 0⟩] ++ []))) := rfl

theorem acid_space_balanced (t : Nat) : balanced (Acid.spaceEvents t) := by
  rw [acid_space_events_eq]
  exact balanced_append (balanced_cons_cc t "TB303" 71 60 balanced_nil)
    (balanced_append (balanced_pair t (t + 4) "PadSynth" 60 60 0)
      (balanced_append (balanced_pair t (t + 4) "PadSynth" 63 60 0)
        (balanced_append (balanced_pair t (t + 4) "PadSynth" 67 60 0) balanced_nil)))

theorem acid_bass_balanced (t : Nat) (g : PyRandom) (cl : Char) :
    balanced (Acid.bassEvents t g cl).1 := by
  unfold Acid.bassEvents
  by_cases h1 : cl ∈ VOWELS
  · simp only [h1, if_pos, PyRandom.random100, PyRandom.next]
    apply balanced_append (balanced_pair _ _ _ _ _ _)
    split
    · exact balanced_cons_cc _ _ _ _ (balanced_cons_cc _ _ _ _ balanced_nil)
    · exact balanced_nil
  · rw [if_neg h1]
    by_cases h2 : cl ∈ DIGITS
    · rw [if_pos h2]
      exact balanced_append (balanced_pair _ _ _ _ _ _) balanced_nil
    · rw [if_neg h2]
      by_cases h3 : cl ∈ CONSONANT_ORDER.toList
      · rw [if_pos h3]
        show balanced ([_, _] ++ [_])
        exact balanced_append (balanced_pair _ _ _ _ _ _)
          (balanced_cons_cc _ _ _ _ balanced_nil)
      · rw [if_neg h3]
        exact balanced_nil

theorem acid_drum_balanced (t i : Nat) (cl : Char) :
    balanced (Acid.drumEvents t i cl) := by
  unfold Acid.drumEvents
  by_cases h1 : cl ∈ VOWELS
  · rw [if_pos h1]
    exact balanced_pair _ _ _ _ _ _
  · rw [if_neg h1]
    by_cases h2 : cl ∈ DIGITS
    · rw [if_pos h2]
      exact balanced_pair _ _ _ _ _ _
    · rw [if_neg h2]
      by_cases h3 : cl ∈ CONSONANT_ORDER.toList
      · rw [if_pos h3]
        exact balanced_pair _ _ _ _ _ _
      · rw [if_neg h3]
        exact balanced_nil

theorem speed_space_balanced (t : Nat) (g : PyRandom) :
    balanced (Speed.spaceEvents t g).1 := by
  unfold Speed.spaceEvents
  simp only [PyRandom.randint, PyRandom.next]
  refine balanced_append (balanced_append (balanced_cons_cc _ _ _ _ balanced_nil) ?_)
    (balanced_pair _ _ _ _ _ _)
  refine foldl_step_preserves balanced _ ?_ _ _ balanced_nil
  intro acc off h
  simp only [PyRandom.randint, PyRandom.next]
  exact balanced_append h (balanced_pair _ _ _ _ _ _)

theorem speed_bass_balanced (t : Nat) (g : PyRandom) (cl : Char) :
    balanced (Speed.bassEvents t g cl).1 := by
  unfold Speed.bassEvents
  by_cases h1 : cl ∈ VOWELS
  · simp only [h1, if_pos, PyRandom.randint, PyRandom.random100, PyRandom.next]
    refine balanced_append (balanced_append (balanced_pair _ _ _ _ _ _) ?_)
      (balanced_cons_cc _ _ _ _ balanced_nil)
    split
    · exact balanced_cons_cc _ _ _ _ (balanced_cons_cc _ _ _ _ balanced_nil)
    · exact balanced_nil
  · rw [if_neg h1]
    by_cases h2 : cl ∈ DIGITS
    · simp only [h2, if_pos, PyRandom.randint, PyRandom.next]
      exact balanced_append (balanced_pair _ _ _ _ _ _) balanced_nil
    · rw [if_neg h2]
      by_cases h3 : cl ∈ CONSONANT_ORDER.toList
      · simp only [h3, if_pos, PyRandom.randint, PyRandom.next]
        show balanced ([_, _] ++ [_])
        exact balanced_append (balanced_pair _ _ _ _ _ _)
          (balanced_cons_cc _ _ _ _ balanced_nil)
      · rw [if_neg h3]
        exact balanced_nil

theorem speed_drum_balanced (t i : Nat) (g : PyRandom) (cl : Char) :
    balanced (Speed.drumEvents t i g cl).1 := by
  unfold Speed.drumEvents
  simp only [PyRandom.randint, PyRandom.random100, PyRandom.next]
  refine balanced_append (balanced_append (balanced_pair _ _ _ _ _ _) ?_) ?_
  · split
    · exact balanced_pair _ _ _ _ _ _
    · exact balanced_nil
  · split
    · exact balanced_pair _ _ _ _ _ _
    · split
      · exact balanced_pair _ _ _ _ _ _
      · split
        · exact balanced_pair _ _ _ _ _ _
        · exact balanced_nil

theorem speed_lead_balanced (t : Nat) (g : PyRandom) (cl : Char) :
    balanced (Speed.leadEvents t g cl).1 := by
  unfold Speed.leadEvents
  simp only [PyRandom.randint, PyRandom.random100, PyRandom.next]
  split
  · split
    · show balanced ([_, _] ++ [_])
      exact balanced_append (balanced_pair _ _ _ _ _ _)
        (balanced_cons_cc _ _ _ _ balanced_nil)
    · exact balanced_nil
  · exact balanced_nil

theorem balanced_ite (c : Prop) [Decidable c] {l₁ l₂ : List Event}
    (h₁ : balanced l₁) (h₂ : balanced l₂) : balanced (if c then l₁ else l₂) := by
  split
  · exact h₁
  · exact h₂

theorem balanced_ite_fst (c : Prop) [Decidable c] {p₁ p₂ : List Event × PyRandom}
    (h₁ : balanced p₁.1) (h₂ : balanced p₂.1) : balanced (if c then p₁ else p₂).1 := by
  split
  · exact h₁
  · exact h₂

theorem foldl_step_preserves_list {β : Type} (P : List Event → Prop)
    (f : List Event → β → List Event) (hf : ∀ acc b, P acc → P (f acc b)) :
    ∀ (l : List β) (acc : List Event), P acc → P (l.foldl f acc) := by
  intro l
  induction l with
  | nil => exact fun _ h => h
  | cons b bs ih => exact fun acc h => ih _ (hf acc b h)

theorem balanced_of_perm {l l' : List Event} (h : l.Perm l') (hb : balanced l') :
    balanced l := fun d n => by
  rw [h.countP_eq, h.countP_eq]
  exact hb d n

/-- The events one acid2midi step appends, as a function of the loop state. -/
def stepEvents (step : MapState → Nat → Char → MapState) (t : Nat) (g : PyRandom)
    (i : Nat) (ch : Char) : List Event :=
  (step ⟨[], [], t, g⟩ i ch).events

theorem acid_charStep_events (s : MapState) (i : Nat) (ch : Char) :
    (Acid.charStep s i ch).events =
      s.events ++ stepEvents Acid.charStep s.time s.g i ch := by
  unfold stepEvents Acid.charStep
  by_cases h1 : ch = ' ' ∨ ch.toLower ∈ PUNCTUATION
  · simp [h1]
  · simp only [if_neg h1]
    by_cases h2 : ch.toLower ∉ ENCODABLE
    · simp [h2]
    · simp only [if_neg h2]
      simp [List.append_assoc]

theorem speed_charStep_events (s : MapState) (i : Nat) (ch : Char) :
    (Speed.charStep s i ch).events =
      s.events ++ stepEvents Speed.charStep s.time s.g i ch := by
  unfold stepEvents Speed.charStep
  by_cases h0 : ch ∈ Speed.SAMPLES
  · simp [h0]
  · simp only [if_neg h0]
    by_cases h1 : ch = ' ' ∨ ch.toLower ∈ PUNCTUATION
    · simp [h1]
    · simp only [if_neg h1]
      by_cases h2 : ch.toLower ∉ ENCODABLE
      · simp [h2]
      · simp only [if_neg h2]
        simp [List.append_assoc]

theorem acid_step_balanced (t : Nat) (g : PyRandom) (i : Nat) (ch : Char) :
    balanced (stepEvents Acid.charStep t g i ch) := by
  unfold stepEvents Acid.charStep
  by_cases h1 : ch = ' ' ∨ ch.toLower ∈ PUNCTUATION
  · simp only [if_pos h1]
    show balanced ([] ++ Acid.spaceEvents t)
    rw [List.nil_append]
    exact acid_space_balanced t
  · simp only [if_neg h1]
    by_cases h2 : ch.toLower ∉ ENCODABLE
    · simp only [if_pos h2]
      exact balanced_nil
    · simp only [if_neg h2]
      show balanced ([] ++ (Acid.bassEvents t g ch.toLower).1 ++ Acid.drumEvents t i ch.toLower)
      rw [List.nil_append]
      exact balanced_append (acid_bass_balanced t g ch.toLower) (acid_drum_balanced t i ch.toLower)

theorem speed_step_balanced (t : Nat) (g : PyRandom) (i : Nat) (ch : Char)
    (hs : ch ∉ Speed.SAMPLES) :
    balanced (stepEvents Speed.charStep t g i ch) := by
  unfold stepEvents Speed.charStep
  simp only [if_neg hs]
  by_cases h1 : ch = ' ' ∨ ch.toLower ∈ PUNCTUATION
  · simp only [if_pos h1]
    show balanced ([] ++ (Speed.spaceEvents t g).1)
    rw [List.nil_append]
    exact speed_space_balanced t g
  · simp only [if_neg h1]
    by_cases h2 : ch.toLower ∉ ENCODABLE
    · simp only [if_pos h2]
      exact balanced_nil
    · simp only [if_neg h2]
      show balanced ([] ++ (Speed.bassEvents t g ch.toLower).1 ++
        (Speed.drumEvents t i (Speed.bassEvents t g ch.toLower).2 ch.toLower).1 ++
        (Speed.leadEvents t (Speed.drumEvents t i (Speed.bassEvents t g ch.toLower).2 ch.toLower).2
          ch.toLower).1)
      rw [List.nil_append]
      exact balanced_append
        (balanced_append (speed_bass_balanced _ _ _) (speed_drum_balanced _ _ _ _))
        (speed_lead_balanced _ _ _)

theorem kickBlock_balanced (tick : Nat) : balanced (Track.kickBlock tick) :=
  balanced_pair _ _ _ _ _ _

theorem offKickBlock_balanced (beat tick : Nat) (g : PyRandom) :
    balanced (Track.offKickBlock beat tick g).1 := by
  unfold Track.offKickBlock
  simp only [PyRandom.random100, PyRandom.next]
  exact balanced_ite _ (balanced_pair _ _ _ _ _ _) balanced_nil

theorem snareBlock_balanced (beat tick : Nat) : balanced (Track.snareBlock beat tick) := by
  unfold Track.snareBlock
  exact balanced_ite _ (balanced_pair _ _ _ _ _ _) balanced_nil

theorem clapBlock_balanced (bar beat tick : Nat) : balanced (Track.clapBlock bar beat tick) := by
  unfold Track.clapBlock
  exact balanced_ite _ (balanced_pair _ _ _ _ _ _) balanced_nil

theorem hatsBlock_balanced (tick : Nat) (g : PyRandom) :
    balanced (Track.hatsBlock tick g).1 := by
  unfold Track.hatsBlock
  refine foldl_step_preserves balanced _ ?_ _ _ balanced_nil
  intro acc i h
  simp only [PyRandom.randint, PyRandom.next]
  exact balanced_append h (balanced_pair _ _ _ _ _ _)

theorem ohBlock_balanced (beat tick : Nat) : balanced (Track.ohBlock beat tick) := by
  unfold Track.ohBlock
  exact balanced_ite _ (balanced_pair _ _ _ _ _ _) balanced_nil

theorem tomsBlock_balanced (bar tick : Nat) (g : PyRandom) :
    balanced (Track.tomsBlock bar tick g).1 := by
  unfold Track.tomsBlock
  simp only [PyRandom.random100, PyRandom.next]
  refine balanced_ite_fst _ (balanced_ite_fst _ (balanced_pair _ _ _ _ _ _) balanced_nil)
    balanced_nil

theorem rimsBlock_balanced (bar tick : Nat) (g : PyRandom) :
    balanced (Track.rimsBlock bar tick g).1 := by
  unfold Track.rimsBlock
  simp only [PyRandom.random100, PyRandom.next]
  refine balanced_ite_fst _ (balanced_ite_fst _ (balanced_pair _ _ _ _ _ _) balanced_nil)
    balanced_nil

theorem crashBlock_balanced (bar beat tick : Nat) :
    balanced (Track.crashBlock bar beat tick) := by
  unfold Track.crashBlock
  exact balanced_ite _ (balanced_pair _ _ _ _ _ _) balanced_nil

theorem tb303_balanced (g : PyRandom) : balanced (Track.tb303 g).1 := by
  unfold Track.tb303
  refine foldl_step_preserves balanced _ ?_ _ _ balanced_nil
  intro acc bar h
  refine foldl_step_preserves balanced _ ?_ _ _ h
  intro acc2 i h2
  simp only [PyRandom.random100, PyRandom.randint, PyRandom.next]
  split
  · refine balanced_append h2 ?_
    show balanced ([_, _] ++ [_, _, _, _])
    exact balanced_append (balanced_pair _ _ _ _ _ _)
      (balanced_cons_cc _ _ _ _ (balanced_cons_cc _ _ _ _
        (balanced_cons_cc _ _ _ _ (balanced_cons_cc _ _ _ _ balanced_nil))))
  · exact h2

theorem bassSub_balanced (acc : List Event × PyRandom) (h : balanced acc.1) :
    balanced (Track.bassSub acc).1 := by
  unfold Track.bassSub
  refine foldl_step_preserves balanced _ ?_ _ _ h
  intro acc1 bar h1
  split
  · refine foldl_step_preserves balanced _ ?_ _ _ h1
    intro acc2 beat h2
    exact balanced_append h2 (balanced_pair _ _ _ _ _ _)
  · exact h1

theorem bp909_balanced (acc : List Event × PyRandom) (h : balanced acc.1) :
    balanced (Track.bp909 acc).1 := by
  unfold Track.bp909
  refine foldl_step_preserves balanced _ ?_ _ _ h
  intro acc1 bar h1
  refine foldl_step_preserves balanced _ ?_ _ _ h1
  intro acc2 beat h2
  exact balanced_append (balanced_append (balanced_append (balanced_append
    (balanced_append (balanced_append (balanced_append (balanced_append
      (balanced_append h2 (kickBlock_balanced _)) (offKickBlock_balanced _ _ _))
      (snareBlock_balanced _ _)) (clapBlock_balanced _ _ _)) (hatsBlock_balanced _ _))
      (ohBlock_balanced _ _)) (tomsBlock_balanced _ _ _)) (rimsBlock_balanced _ _ _))
      (crashBlock_balanced _ _ _)

theorem leadSynth_balanced (acc : List Event × PyRandom) (h : balanced acc.1) :
    balanced (Track.leadSynth acc).1 := by
  unfold Track.leadSynth
  refine foldl_step_preserves balanced _ ?_ _ _ h
  intro acc1 bar h1
  refine foldl_step_preserves balanced _ ?_ _ _ h1
  intro acc2 beat h2
  simp only [PyRandom.randint, PyRandom.next]
  exact balanced_append h2 (balanced_pair _ _ _ _ _ _)

theorem arpSynth_balanced (acc : List Event × PyRandom) (h : balanced acc.1) :
    balanced (Track.arpSynth acc).1 := by
  unfold Track.arpSynth
  refine foldl_step_preserves balanced _ ?_ _ _ h
  intro acc1 bar h1
  refine foldl_step_preserves balanced _ ?_ _ _ h1
  intro acc2 i h2
  exact balanced_append h2 (balanced_pair _ _ _ _ _ _)

theorem padSynth_balanced (acc : List Event × PyRandom) (h : balanced acc.1) :
    balanced (Track.padSynth acc).1 := by
  unfold Track.padSynth
  refine foldl_step_preserves balanced _ ?_ _ _ h
  intro acc1 bar h1
  refine foldl_step_preserves_list balanced _ ?_ _ _ h1
  intro acc2 off h2
  exact balanced_append h2 (balanced_pair _ _ _ _ _ _)

theorem sampleBank1_balanced (acc : List Event × PyRandom) (h : balanced acc.1) :
    balanced (Track.sampleBank1 acc).1 := by
  unfold Track.sampleBank1
  refine foldl_step_preserves balanced _ ?_ _ _ h
  intro acc1 bar h1
  exact balanced_append (balanced_append h1 (balanced_pair _ _ _ _ _ _))
    (balanced_ite _ (balanced_pair _ _ _ _ _ _) balanced_nil)

theorem sampleBank2_balanced (acc : List Event × PyRandom) (h : balanced acc.1) :
    balanced (Track.sampleBank2 acc).1 := by
  unfold Track.sampleBank2
  refine foldl_step_preserves balanced _ ?_ _ _ h
  intro acc1 bar h1
  exact balanced_append h1 (balanced_pair _ _ _ _ _ _)

theorem track_balanced (g : PyRandom) : balanced (Track.generate_acid_patterns g) := by
  unfold Track.generate_acid_patterns
  refine balanced_of_perm (List.perm_insertionSort tupleLE _) ?_
  exact sampleBank2_balanced _ (sampleBank1_balanced _ (padSynth_balanced _
    (arpSynth_balanced _ (leadSynth_balanced _ (bp909_balanced _
      (bassSub_balanced _ (tb303_balanced _)))))))

/-! ## Per-step timing: NoteOns at the current tick, NoteOffs strictly later -/

/-- All NoteOns of `l` lie at tick `t` and all NoteOffs at tick `≥ t + 1`
(i.e. at `t + duration` with `duration ≥ 1`). -/
def stepTimed (t : Nat) (l : List Event) : Prop :=
  ∀ e ∈ l, (e.action = "on" → e.tick = t) ∧ (e.action = "off" → t + 1 ≤ e.tick)

theorem stepTimed_nil (t : Nat) : stepTimed t [] := fun e he => absurd he (List.not_mem_nil e)

theorem stepTimed_append {t : Nat} {l₁ l₂ : List Event}
    (h₁ : stepTimed t l₁) (h₂ : stepTimed t l₂) : stepTimed t (l₁ ++ l₂) := by
  intro e he
  rcases List.mem_append.mp he with h | h
  · exact h₁ e h
  · exact h₂ e h

theorem stepTimed_ite {t : Nat} (c : Prop) [Decidable c] {l₁ l₂ : List Event}
    (h₁ : stepTimed t l₁) (h₂ : stepTimed t l₂) : stepTimed t (if c then l₁ else l₂) := by
  split
  · exact h₁
  · exact h₂

theorem stepTimed_pair (t dt : Nat) (hdt : 1 ≤ dt) (d : String) (n v p : Int) :
    stepTimed t [⟨t, d, "on", n, v⟩, ⟨t + dt, d, "off", n, p⟩] := by
  intro e he
  rcases List.mem_cons.mp he with rfl | he2
  · refine ⟨fun _ => rfl, fun hoff => ?_⟩
    simp at hoff
  · rcases List.mem_cons.mp he2 with rfl | he3
    · refine ⟨fun hon => ?_, fun _ => ?_⟩
      · simp at hon
      · show t + 1 ≤ t + dt
        omega
    · exact absurd he3 (List.not_mem_nil e)

theorem stepTimed_cons_cc {t : Nat} (t' : Nat) (d : String) (v p : Int) {l : List Event}
    (h : stepTimed t l) : stepTimed t (⟨t', d, "cc", v, p⟩ :: l) := by
  intro e he
  rcases List.mem_cons.mp he with rfl | he2
  · refine ⟨fun hon => ?_, fun hoff => ?_⟩
    · simp at hon
    · simp at hoff
  · exact h e he2

theorem acid_space_timed (t : Nat) : stepTimed t (Acid.spaceEvents t) := by
  rw [acid_space_events_eq]
  exact stepTimed_append (stepTimed_cons_cc t "TB303" 71 60 (stepTimed_nil t))
    (stepTimed_append (stepTimed_pair t 4 (by omega) "PadSynth" 60 60 0)
      (stepTimed_append (stepTimed_pair t 4 (by omega) "PadSynth" 63 60 0)
        (stepTimed_append (stepTimed_pair t 4 (by omega) "PadSynth" 67 60 0)
          (stepTimed_nil t))))

theorem acid_bass_timed (t : Nat) (g : PyRandom) (cl : Char) :
    stepTimed t (Acid.bassEvents t g cl).1 := by
  unfold Acid.bassEvents
  by_cases h1 : cl ∈ VOWELS
  · simp only [h1, if_pos, PyRandom.random100, PyRandom.next]
    refine stepTimed_append (stepTimed_pair t _ ?_ _ _ _ _) ?_
    · split
      · omega
      · omega
    · exact stepTimed_ite _
        (stepTimed_cons_cc _ _ _ _ (stepTimed_cons_cc _ _ _ _ (stepTimed_nil t)))
        (stepTimed_nil t)
  · rw [if_neg h1]
    by_cases h2 : cl ∈ DIGITS
    · rw [if_pos h2]
      exact stepTimed_pair t 1 (by omega) _ _ _ _
    · rw [if_neg h2]
      by_cases h3 : cl ∈ CONSONANT_ORDER.toList
      · rw [if_pos h3]
        show stepTimed t ([_, _] ++ [_])
        exact stepTimed_append (stepTimed_pair t 1 (by omega) _ _ _ _)
          (stepTimed_cons_cc _ _ _ _ (stepTimed_nil t))
      · rw [if_neg h3]
        exact stepTimed_nil t

theorem acid_drum_timed (t i : Nat) (cl : Char) : stepTimed t (Acid.drumEvents t i cl) := by
  unfold Acid.drumEvents
  by_cases h1 : cl ∈ VOWELS
  · rw [if_pos h1]
    exact stepTimed_pair t 1 (by omega) _ _ _ _
  · rw [if_neg h1]
    by_cases h2 : cl ∈ DIGITS
    · rw [if_pos h2]
      exact stepTimed_pair t 1 (by omega) _ _ _ _
    · rw [if_neg h2]
      by_cases h3 : cl ∈ CONSONANT_ORDER.toList
      · rw [if_pos h3]
        exact stepTimed_pair t 1 (by omega) _ _ _ _
      · rw [if_neg h3]
        exact stepTimed_nil t

theorem speed_space_timed (t : Nat) (g : PyRandom) :
    stepTimed t (Speed.spaceEvents t g).1 := by
  unfold Speed.spaceEvents
  simp only [PyRandom.randint, PyRandom.next]
  refine stepTimed_append (stepTimed_append
    (stepTimed_cons_cc _ _ _ _ (stepTimed_nil t)) ?_)
    (stepTimed_pair t 1 (by omega) _ _ _ _)
  refine foldl_step_preserves (stepTimed t) _ ?_ _ _ (stepTimed_nil t)
  intro acc off h
  simp only [PyRandom.randint, PyRandom.next]
  exact stepTimed_append h (stepTimed_pair t 1 (by omega) _ _ _ _)

theorem speed_bass_timed (t : Nat) (g : PyRandom) (cl : Char) :
    stepTimed t (Speed.bassEvents t g cl).1 := by
  unfold Speed.bassEvents
  by_cases h1 : cl ∈ VOWELS
  · simp only [h1, if_pos, PyRandom.randint, PyRandom.random100, PyRandom.next]
    refine stepTimed_append (stepTimed_append (stepTimed_pair t _ ?_ _ _ _ _) ?_)
      (stepTimed_cons_cc _ _ _ _ (stepTimed_nil t))
    · split
      · omega
      · omega
    · exact stepTimed_ite _
        (stepTimed_cons_cc _ _ _ _ (stepTimed_cons_cc _ _ _ _ (stepTimed_nil t)))
        (stepTimed_nil t)
  · rw [if_neg h1]
    by_cases h2 : cl ∈ DIGITS
    · simp only [h2, if_pos, PyRandom.randint, PyRandom.next]
      exact stepTimed_pair t 1 (by omega) _ _ _ _
    · rw [if_neg h2]
      by_cases h3 : cl ∈ CONSONANT_ORDER.toList
      · simp only [h3, if_pos, PyRandom.randint, PyRandom.next]
        show stepTimed t ([_, _] ++ [_])
        exact stepTimed_append (stepTimed_pair t 1 (by omega) _ _ _ _)
          (stepTimed_cons_cc _ _ _ _ (stepTimed_nil t))
      · rw [if_neg h3]
        exact stepTimed_nil t

theorem speed_drum_timed (t i : Nat) (g : PyRandom) (cl : Char) :
    stepTimed t (Speed.drumEvents t i g cl).1 := by
  unfold Speed.drumEvents
  simp only [PyRandom.randint, PyRandom.random100, PyRandom.next]
  refine stepTimed_append (stepTimed_append (stepTimed_pair t 1 (by omega) _ _ _ _) ?_) ?_
  · split
    · exact stepTimed_pair t 1 (by omega) _ _ _ _
    · exact stepTimed_nil t
  · split
    · exact stepTimed_pair t 1 (by omega) _ _ _ _
    · split
      · exact stepTimed_pair t 1 (by omega) _ _ _ _
      · split
        · exact stepTimed_pair t 1 (by omega) _ _ _ _
        · exact stepTimed_nil t

theorem speed_lead_timed (t : Nat) (g : PyRandom) (cl : Char) :
    stepTimed t (Speed.leadEvents t g cl).1 := by
  unfold Speed.leadEvents
  simp only [PyRandom.randint, PyRandom.random100, PyRandom.next]
  split
  · split
    · show stepTimed t ([_, _] ++ [_])
      exact stepTimed_append (stepTimed_pair t 1 (by omega) _ _ _ _)
        (stepTimed_cons_cc _ _ _ _ (stepTimed_nil t))
    · exact stepTimed_nil t
  · exact stepTimed_nil t

theorem acid_step_timed (t : Nat) (g : PyRandom) (i : Nat) (ch : Char) :
    stepTimed t (stepEvents Acid.charStep t g i ch) := by
  unfold stepEvents Acid.charStep
  by_cases h1 : ch = ' ' ∨ ch.toLower ∈ PUNCTUATION
  · simp only [if_pos h1]
    show stepTimed t ([] ++ Acid.spaceEvents t)
    rw [List.nil_append]
    exact acid_space_timed t
  · simp only [if_neg h1]
    by_cases h2 : ch.toLower ∉ ENCODABLE
    · simp only [if_pos h2]
      exact stepTimed_nil t
    · simp only [if_neg h2]
      show stepTimed t ([] ++ (Acid.bassEvents t g ch.toLower).1 ++ Acid.drumEvents t i ch.toLower)
      rw [List.nil_append]
      exact stepTimed_append (acid_bass_timed t g ch.toLower) (acid_drum_timed t i ch.toLower)

theorem speed_step_timed (t : Nat) (g : PyRandom) (i : Nat) (ch : Char)
    (hs : ch ∉ Speed.SAMPLES) :
    stepTimed t (stepEvents Speed.charStep t g i ch) := by
  unfold stepEvents Speed.charStep
  simp only [if_neg hs]
  by_cases h1 : ch = ' ' ∨ ch.toLower ∈ PUNCTUATION
  · simp only [if_pos h1]
    show stepTimed t ([] ++ (Speed.spaceEvents t g).1)
    rw [List.nil_append]
    exact speed_space_timed t g
  · simp only [if_neg h1]
    by_cases h2 : ch.toLower ∉ ENCODABLE
    · simp only [if_pos h2]
      exact stepTimed_nil t
    · simp only [if_neg h2]
      show stepTimed t ([] ++ (Speed.bassEvents t g ch.toLower).1 ++
        (Speed.drumEvents t i (Speed.bassEvents t g ch.toLower).2 ch.toLower).1 ++
        (Speed.leadEvents t (Speed.drumEvents t i (Speed.bassEvents t g ch.toLower).2 ch.toLower).2
          ch.toLower).1)
      rw [List.nil_append]
      exact stepTimed_append
        (stepTimed_append (speed_bass_timed _ _ _) (speed_drum_timed _ _ _ _))
        (speed_lead_timed _ _ _)

/-- **C4 (amended).** Every mapper branch except speedcore2midi's
sample-trigger branch is note-balanced and properly timed: among the events a
single symbol emits, every (track, note) pair receives exactly as many
NoteOffs as NoteOns, every NoteOn lies at the current tick and every NoteOff
at `tick + duration` with `duration ≥ 1`; the generative variant's full event
list is likewise note-balanced per (track, note). -/
theorem note_off_amended :
    (∀ (t : Nat) (g : PyRandom) (i : Nat) (ch : Char),
        balanced (stepEvents Acid.charStep t g i ch) ∧
        stepTimed t (stepEvents Acid.charStep t g i ch)) ∧
    (∀ (t : Nat) (g : PyRandom) (i : Nat) (ch : Char), ch ∉ Speed.SAMPLES →
        balanced (stepEvents Speed.charStep t g i ch) ∧
        stepTimed t (stepEvents Speed.charStep t g i ch)) ∧
    (∀ g : PyRandom, balanced (Track.generate_acid_patterns g)) :=
  ⟨fun t g i ch => ⟨acid_step_balanced t g i ch, acid_step_timed t g i ch⟩,
   fun t g i ch hs => ⟨speed_step_balanced t g i ch hs, speed_step_timed t g i ch hs⟩,
   track_balanced⟩

/-- Witness for the amended C4: the speedcore step on the non-sample symbol
`'a'` at tick 0. -/
theorem note_off_amended_witness :
    balanced (stepEvents Speed.charStep 0 ⟨0⟩ 0 'a') ∧
    stepTimed 0 (stepEvents Speed.charStep 0 ⟨0⟩ 0 'a') :=
  note_off_amended.2.1 0 ⟨0⟩ 0 'a' (by decide)

/-! ## Range invariant: stored `value` and `param` always lie in [0, 127] -/

/-- Every event of `l` has `value` and `param` inside `[0, 127]`. -/
def inRange (l : List Event) : Prop :=
  ∀ e ∈ l, 0 ≤ e.value ∧ e.value ≤ 127 ∧ 0 ≤ e.param ∧ e.param ≤ 127

theorem clamp_range (n : Int) : 0 ≤ clamp n ∧ clamp n ≤ 127 := by
  unfold clamp
  constructor
  · exact le_min (le_max_right n 0) (by norm_num)
  · exact min_le_right _ _

theorem randint_bounds (g : PyRandom) (a b : Int) (hab : a ≤ b) :
    a ≤ (g.randint a b).1 ∧ (g.randint a b).1 ≤ b := by
  unfold PyRandom.randint PyRandom.next
  simp only
  constructor
  · have h := Int.emod_nonneg (((g.state * 1103515245 + 12345) % 2147483648 : Nat) : Int)
      (show (b - a + 1 : Int) ≠ 0 by omega)
    omega
  · have h := Int.emod_lt_of_pos (((g.state * 1103515245 + 12345) % 2147483648 : Nat) : Int)
      (show (0 : Int) < b - a + 1 by omega)
    omega

theorem randint_range (g : PyRandom) (a b : Int) (h0 : 0 ≤ a) (hab : a ≤ b) (h127 : b ≤ 127) :
    0 ≤ (g.randint a b).1 ∧ (g.randint a b).1 ≤ 127 := by
  have h := randint_bounds g a b hab
  exact ⟨le_trans h0 h.1, le_trans h.2 h127⟩

theorem drum_notes_range (s : String) : 0 ≤ DRUM_NOTES s ∧ DRUM_NOTES s ≤ 127 := by
  unfold DRUM_NOTES
  split_ifs <;> exact ⟨by norm_num, by norm_num⟩

theorem inRange_nil : inRange [] := fun e he => absurd he (List.not_mem_nil e)

theorem inRange_append {l₁ l₂ : List Event} (h₁ : inRange l₁) (h₂ : inRange l₂) :
    inRange (l₁ ++ l₂) := by
  intro e he
  rcases List.mem_append.mp he with h | h
  · exact h₁ e h
  · exact h₂ e h

theorem inRange_ite (c : Prop) [Decidable c] {l₁ l₂ : List Event}
    (h₁ : inRange l₁) (h₂ : inRange l₂) : inRange (if c then l₁ else l₂) := by
  split
  · exact h₁
  · exact h₂

theorem inRange_cons (t : Nat) (d a : String) (v p : Int)
    (hv : 0 ≤ v ∧ v ≤ 127) (hp : 0 ≤ p ∧ p ≤ 127) {l : List Event} (h : inRange l) :
    inRange (⟨t, d, a, v, p⟩ :: l) := by
  intro e he
  rcases List.mem_cons.mp he with rfl | he2
  · exact ⟨hv.1, hv.2, hp.1, hp.2⟩
  · exact h e he2

theorem inRange_pair (t t' : Nat) (d : String) (n v p : Int)
    (hn : 0 ≤ n ∧ n ≤ 127) (hv : 0 ≤ v ∧ v ≤ 127) (hp : 0 ≤ p ∧ p ≤ 127) :
    inRange [⟨t, d, "on", n, v⟩, ⟨t', d, "off", n, p⟩] :=
  inRange_cons t d "on" n v hn hv (inRange_cons t' d "off" n p hn hp inRange_nil)

theorem lit_range : (0 : Int) ≤ 0 ∧ (0 : Int) ≤ 127 := by norm_num

theorem acid_space_inRange (t : Nat) : inRange (Acid.spaceEvents t) := by
  rw [acid_space_events_eq]
  refine inRange_append (inRange_cons _ _ _ _ _ (by norm_num) (by norm_num) inRange_nil) ?_
  refine inRange_append (inRange_pair _ _ _ _ _ _ (by norm_num) (by norm_num) (by norm_num)) ?_
  refine inRange_append (inRange_pair _ _ _ _ _ _ (by norm_num) (by norm_num) (by norm_num)) ?_
  exact inRange_append (inRange_pair _ _ _ _ _ _ (by norm_num) (by norm_num) (by norm_num))
    inRange_nil

theorem acid_bass_inRange (t : Nat) (g : PyRandom) (cl : Char) :
    inRange (Acid.bassEvents t g cl).1 := by
  unfold Acid.bassEvents
  by_cases h1 : cl ∈ VOWELS
  · simp only [h1, if_pos, PyRandom.random100, PyRandom.next]
    refine inRange_append
      (inRange_pair _ _ _ _ _ _ (clamp_range _) (by norm_num) (by norm_num)) ?_
    exact inRange_ite _
      (inRange_cons _ _ _ _ _ (by norm_num) (by norm_num)
        (inRange_cons _ _ _ _ _ (by norm_num) (by norm_num) inRange_nil))
      inRange_nil
  · rw [if_neg h1]
    by_cases h2 : cl ∈ DIGITS
    · rw [if_pos h2]
      exact inRange_pair _ _ _ _ _ _ (clamp_range _) (by norm_num) (by norm_num)
    · rw [if_neg h2]
      by_cases h3 : cl ∈ CONSONANT_ORDER.toList
      · rw [if_pos h3]
        show inRange ([_, _] ++ [_])
        exact inRange_append
          (inRange_pair _ _ _ _ _ _ (clamp_range _) (by norm_num) (by norm_num))
          (inRange_cons _ _ _ _ _ (by norm_num) (by norm_num) inRange_nil)
      · rw [if_neg h3]
        exact inRange_nil

theorem acid_drum_inRange (t i : Nat) (cl : Char) : inRange (Acid.drumEvents t i cl) := by
  unfold Acid.drumEvents
  by_cases h1 : cl ∈ VOWELS
  · rw [if_pos h1]
    exact inRange_pair _ _ _ _ _ _ (drum_notes_range _) (by norm_num) (by norm_num)
  · rw [if_neg h1]
    by_cases h2 : cl ∈ DIGITS
    · rw [if_pos h2]
      exact inRange_pair _ _ _ _ _ _ (drum_notes_range _) (by norm_num) (by norm_num)
    · rw [if_neg h2]
      by_cases h3 : cl ∈ CONSONANT_ORDER.toList
      · rw [if_pos h3]
        exact inRange_pair _ _ _ _ _ _ (drum_notes_range _)
          ⟨by split_ifs <;> norm_num, by split_ifs <;> norm_num⟩ (by norm_num)
      · rw [if_neg h3]
        exact inRange_nil

theorem speed_sample_inRange (t : Nat) (g : PyRandom) (ch : Char) :
    inRange (Speed.sampleEvents t g ch).1 := by
  unfold Speed.sampleEvents
  simp only [PyRandom.randint, PyRandom.next]
  exact inRange_cons _ _ _ _ _ (clamp_range _)
    (randint_range _ 127 127 (by norm_num) (by norm_num) (by norm_num)) inRange_nil

theorem speed_space_inRange (t : Nat) (g : PyRandom) :
    inRange (Speed.spaceEvents t g).1 := by
  unfold Speed.spaceEvents
  simp only [PyRandom.randint, PyRandom.next]
  refine inRange_append (inRange_append (inRange_cons _ _ _ _ _ (by norm_num)
    (randint_range _ 80 127 (by norm_num) (by norm_num) (by norm_num)) inRange_nil) ?_)
    (inRange_pair _ _ _ _ _ _ (drum_notes_range _)
      (randint_range _ 90 127 (by norm_num) (by norm_num) (by norm_num)) (by norm_num))
  refine foldl_step_preserves inRange _ ?_ _ _ inRange_nil
  intro acc off h
  simp only [PyRandom.randint, PyRandom.next]
  exact inRange_append h (inRange_pair _ _ _ _ _ _ (clamp_range _)
    (randint_range _ 60 90 (by norm_num) (by norm_num) (by norm_num)) (by norm_num))

theorem speed_bass_inRange (t : Nat) (g : PyRandom) (cl : Char) :
    inRange (Speed.bassEvents t g cl).1 := by
  unfold Speed.bassEvents
  by_cases h1 : cl ∈ VOWELS
  · simp only [h1, if_pos, PyRandom.randint, PyRandom.random100, PyRandom.next]
    refine inRange_append (inRange_append (inRange_pair _ _ _ _ _ _ (clamp_range _)
      (randint_range _ 80 127 (by norm_num) (by norm_num) (by norm_num)) (by norm_num)) ?_)
      (inRange_cons _ _ _ _ _ (by norm_num)
        (randint_range _ 60 127 (by norm_num) (by norm_num) (by norm_num)) inRange_nil)
    exact inRange_ite _
      (inRange_cons _ _ _ _ _ (by norm_num) (by norm_num)
        (inRange_cons _ _ _ _ _ (by norm_num) (by norm_num) inRange_nil))
      inRange_nil
  · rw [if_neg h1]
    by_cases h2 : cl ∈ DIGITS
    · simp only [h2, if_pos, PyRandom.randint, PyRandom.next]
      exact inRange_pair _ _ _ _ _ _ (clamp_range _)
        (randint_range _ 70 110 (by norm_num) (by norm_num) (by norm_num)) (by norm_num)
    · rw [if_neg h2]
      by_cases h3 : cl ∈ CONSONANT_ORDER.toList
      · simp only [h3, if_pos, PyRandom.randint, PyRandom.next]
        show inRange ([_, _] ++ [_])
        refine inRange_append (inRange_pair _ _ _ _ _ _ (clamp_range _)
          (randint_range _ 100 127 (by norm_num) (by norm_num) (by norm_num)) (by norm_num)) ?_
        exact inRange_cons _ _ _ _ _ (by norm_num)
          (randint_range _ 80 127 (by norm_num) (by norm_num) (by norm_num)) inRange_nil
      · rw [if_neg h3]
        exact inRange_nil

theorem speed_drum_inRange (t i : Nat) (g : PyRandom) (cl : Char) :
    inRange (Speed.drumEvents t i g cl).1 := by
  unfold Speed.drumEvents
  simp only [PyRandom.randint, PyRandom.random100, PyRandom.next]
  refine inRange_append (inRange_append (inRange_pair _ _ _ _ _ _ (drum_notes_range _)
    (randint_range _ 100 127 (by norm_num) (by norm_num) (by norm_num)) (by norm_num)) ?_) ?_
  · split
    · exact inRange_pair _ _ _ _ _ _ (drum_notes_range _)
        (randint_range _ 60 90 (by norm_num) (by norm_num) (by norm_num)) (by norm_num)
    · exact inRange_nil
  · split
    · exact inRange_pair _ _ _ _ _ _ (drum_notes_range _)
        (randint_range _ 100 127 (by norm_num) (by norm_num) (by norm_num)) (by norm_num)
    · split
      · exact inRange_pair _ _ _ _ _ _ (drum_notes_range _)
          (randint_range _ 60 90 (by norm_num) (by norm_num) (by norm_num)) (by norm_num)
      · split
        · exact inRange_pair _ _ _ _ _ _ (drum_notes_range _)
            (randint_range _ _ 127 (by split_ifs <;> norm_num) (by split_ifs <;> norm_num)
              (by norm_num)) (by norm_num)
        · exact inRange_nil

theorem speed_lead_inRange (t : Nat) (g : PyRandom) (cl : Char) :
    inRange (Speed.leadEvents t g cl).1 := by
  unfold Speed.leadEvents
  simp only [PyRandom.randint, PyRandom.random100, PyRandom.next]
  split
  · split
    · show inRange ([_, _] ++ [_])
      refine inRange_append (inRange_pair _ _ _ _ _ _ (clamp_range _)
        (randint_range _ 80 127 (by norm_num) (by norm_num) (by norm_num)) (by norm_num)) ?_
      exact inRange_cons _ _ _ _ _ (by norm_num) (by norm_num) inRange_nil
    · exact inRange_nil
  · exact inRange_nil

theorem acid_step_inRange (t : Nat) (g : PyRandom) (i : Nat) (ch : Char) :
    inRange (stepEvents Acid.charStep t g i ch) := by
  unfold stepEvents Acid.charStep
  by_cases h1 : ch = ' ' ∨ ch.toLower ∈ PUNCTUATION
  · simp only [if_pos h1]
    show inRange ([] ++ Acid.spaceEvents t)
    rw [List.nil_append]
    exact acid_space_inRange t
  · simp only [if_neg h1]
    by_cases h2 : ch.toLower ∉ ENCODABLE
    · simp only [if_pos h2]
      exact inRange_nil
    · simp only [if_neg h2]
      show inRange ([] ++ (Acid.bassEvents t g ch.toLower).1 ++ Acid.drumEvents t i ch.toLower)
      rw [List.nil_append]
      exact inRange_append (acid_bass_inRange t g ch.toLower) (acid_drum_inRange t i ch.toLower)

theorem speed_step_inRange (t : Nat) (g : PyRandom) (i : Nat) (ch : Char) :
    inRange (stepEvents Speed.charStep t g i ch) := by
  unfold stepEvents Speed.charStep
  by_cases h0 : ch ∈ Speed.SAMPLES
  · simp only [if_pos h0]
    show inRange ([] ++ (Speed.sampleEvents t g ch).1)
    rw [List.nil_append]
    exact speed_sample_inRange t g ch
  · simp only [if_neg h0]
    by_cases h1 : ch = ' ' ∨ ch.toLower ∈ PUNCTUATION
    · simp only [if_pos h1]
      show inRange ([] ++ (Speed.spaceEvents t g).1)
      rw [List.nil_append]
      exact speed_space_inRange t g
    · simp only [if_neg h1]
      by_cases h2 : ch.toLower ∉ ENCODABLE
      · simp only [if_pos h2]
        exact inRange_nil
      · simp only [if_neg h2]
        show inRange ([] ++ (Speed.bassEvents t g ch.toLower).1 ++
          (Speed.drumEvents t i (Speed.bassEvents t g ch.toLower).2 ch.toLower).1 ++
          (Speed.leadEvents t
            (Speed.drumEvents t i (Speed.bassEvents t g ch.toLower).2 ch.toLower).2
            ch.toLower).1)
        rw [List.nil_append]
        exact inRange_append
          (inRange_append (speed_bass_inRange _ _ _) (speed_drum_inRange _ _ _ _))
          (speed_lead_inRange _ _ _)

/-- A property of the accumulated event list preserved by every character step
is preserved by the whole mapper loop. -/
theorem foldl_charStep_preserves (P : List Event → Prop)
    (step : MapState → Nat → Char → MapState)
    (hstep : ∀ (s : MapState) (i : Nat) (ch : Char), P s.events → P (step s i ch).events) :
    ∀ (l : List (Nat × Char)) (s : MapState), P s.events →
      P ((l.foldl (fun s p => step s p.1 p.2) s).events) := by
  intro l
  induction l with
  | nil => exact fun _ h => h
  | cons p ps ih => exact fun s h => ih _ (hstep s p.1 p.2 h)

theorem inRange_of_perm {l l' : List Event} (h : l.Perm l') (hr : inRange l') : inRange l :=
  fun e he => hr e (h.mem_iff.mp he)

/-- **C7.** Every event stored in either text mapper's Merged Sequence has its
`value` and `param` clamped into `[0, 127]` — no stored event carries a value
or parameter outside that interval, for every input text — and the clamp
function used at every storage site maps a computed `-5` to `0` and a computed
`140` to `127`. -/
theorem clamping_invariant :
    (∀ (g : PyRandom) (text : String), inRange (Acid.text_to_event_queue g text).1) ∧
    (∀ (g : PyRandom) (text : String), inRange (Speed.text_to_event_queue g text).1) ∧
    clamp (-5) = 0 ∧ clamp 140 = 127 := by
  refine ⟨fun g text => ?_, fun g text => ?_, rfl, rfl⟩
  · refine inRange_of_perm (List.perm_insertionSort tupleLE _) ?_
    refine foldl_charStep_preserves inRange Acid.charStep ?_ _ _ inRange_nil
    intro s i ch h
    rw [acid_charStep_events]
    exact inRange_append h (acid_step_inRange s.time s.g i ch)
  · refine inRange_of_perm (List.perm_insertionSort tupleLE _) ?_
    refine foldl_charStep_preserves inRange Speed.charStep ?_ _ _ inRange_nil
    intro s i ch h
    rw [speed_charStep_events]
    exact inRange_append h (speed_step_inRange s.time s.g i ch)

/-- Witness for C7: the stored TB303 NoteOn of input `"a"` has its value and
parameter inside `[0, 127]`. -/
theorem clamping_invariant_witness :
    0 ≤ (⟨0, "TB303", "on", 48, 80⟩ : Event).value ∧
    (⟨0, "TB303", "on", 48, 80⟩ : Event).value ≤ 127 ∧
    0 ≤ (⟨0, "TB303", "on", 48, 80⟩ : Event).param ∧
    (⟨0, "TB303", "on", 48, 80⟩ : Event).param ≤ 127 :=
  clamping_invariant.1 ⟨0⟩ "a" ⟨0, "TB303", "on", 48, 80⟩ (by decide)

/-! ## C5: max_tick and the tick-loop dispatch -/

theorem tupleLE_tick {a b : Event} (h : tupleLE a b) : a.tick ≤ b.tick := by
  unfold tupleLE Event.key at h
  rcases (Prod.Lex.le_iff _ _).mp h with hlt | ⟨heq, -⟩
  · exact le_of_lt hlt
  · exact le_of_eq heq

theorem dropWhile_head_false {α : Type} (p : α → Bool) (l : List α) {x : α} {xs : List α}
    (h : l.dropWhile p = x :: xs) : p x = false := by
  have h' := List.head?_dropWhile_not p l
  rw [h] at h'
  simpa using h'

/-- If a tick-sorted list lies entirely inside the fuel window, the pointer
loop dispatches it whole, in order. -/
theorem ticksFrom_eq : ∀ (fuel t : Nat) (l : List Event),
    l.Pairwise (fun a b => a.tick ≤ b.tick) →
    (∀ e ∈ l, t ≤ e.tick ∧ e.tick < t + fuel) →
    ticksFrom t fuel l = l := by
  intro fuel
  induction fuel with
  | zero =>
    intro t l _ hb
    cases l with
    | nil => rfl
    | cons e es =>
      have := hb e (List.mem_cons_self e es)
      omega
  | succ fuel ih =>
    intro t l hp hb
    show l.takeWhile (fun e => e.tick == t) ++
      ticksFrom (t + 1) fuel (l.dropWhile (fun e => e.tick == t)) = l
    have hsuf : l.dropWhile (fun e => e.tick == t) <:+ l := List.dropWhile_suffix _
    have hpd : (l.dropWhile (fun e => e.tick == t)).Pairwise (fun a b => a.tick ≤ b.tick) :=
      hp.sublist hsuf.sublist
    have hbd : ∀ e ∈ l.dropWhile (fun e => e.tick == t),
        t + 1 ≤ e.tick ∧ e.tick < t + 1 + fuel := by
      cases hrest : l.dropWhile (fun e => e.tick == t) with
      | nil => intro e he; exact absurd he (List.not_mem_nil e)
      | cons x xs =>
        have hxf : (x.tick == t) = false := dropWhile_head_false _ l hrest
        have hxne : x.tick ≠ t := by simpa using hxf
        have hxl : x ∈ l := hsuf.sublist.mem (by rw [hrest]; exact List.mem_cons_self x xs)
        have hxt := hb x hxl
        have hx1 : t + 1 ≤ x.tick := by omega
        intro e he
        have hel : e ∈ l := hsuf.sublist.mem (by rw [hrest]; exact he)
        have het := hb e hel
        rcases List.mem_cons.mp he with rfl | he2
        · exact ⟨hx1, by omega⟩
        · have hpd2 := hpd
          rw [hrest] at hpd2
          have hxe : x.tick ≤ e.tick := (List.pairwise_cons.mp hpd2).1 e he2
          exact ⟨by omega, by omega⟩
    rw [ih (t + 1) _ hpd hbd]
    exact List.takeWhile_append_dropWhile _ _

theorem le_foldr_max (x : Nat) : ∀ (l : List Nat), x ∈ l → x ≤ l.foldr max 0 := by
  intro l
  induction l with
  | nil => intro h; exact absurd h (List.not_mem_nil x)
  | cons a as ih =>
    intro h
    rcases List.mem_cons.mp h with rfl | h2
    · exact le_max_left _ _
    · exact le_trans (ih h2) (le_max_right _ _)

theorem foldr_max_mem : ∀ (l : List Nat), l ≠ [] → l.foldr max 0 ∈ l := by
  intro l
  induction l with
  | nil => intro h; exact absurd rfl h
  | cons a as ih =>
    intro _
    show max a (as.foldr max 0) ∈ a :: as
    rcases max_choice a (as.foldr max 0) with h | h
    · rw [h]; exact List.mem_cons_self a as
    · rw [h]
      cases as with
      | nil =>
        have ha : a = 0 := by simpa using h
        simp [ha]
      | cons b bs => exact List.mem_cons_of_mem a (ih (by simp))

/-- The tick values `max_tick` ranges over in acid2midi: the Merged Sequence's
ticks together with the annotation (char-timing) ticks. -/
def acidTicks (g : PyRandom) (text : String) : List Nat :=
  (Acid.text_to_event_queue g text).1.map Event.tick ++
    (Acid.text_to_event_queue g text).2.map (fun c => c.1)

/-- The tick values `max_tick` ranges over in speedcore2midi. -/
def speedTicks (g : PyRandom) (text : String) : List Nat :=
  (Speed.text_to_event_queue g text).1.map Event.tick ++
    (Speed.text_to_event_queue g text).2.map (fun c => c.1)

/-- **C5.** At playback start `max_tick` is one past the highest tick present
in the Merged Sequence and the annotation stream (every such tick is below
`max_tick`, and when any tick exists, `max_tick - 1` is one of them); and the
tick loop — one iteration per tick value from 0 through `max_tick` inclusive —
dispatches, before each tick's sleep, exactly the events whose tick equals the
current tick, each exactly once, in Merged Sequence order: the full dispatch
trace is the Merged Sequence itself. -/
theorem scheduler_dispatch :
    (∀ (g : PyRandom) (text : String),
      (∀ x ∈ acidTicks g text, x < max_tick (acidTicks g text)) ∧
      (acidTicks g text ≠ [] →
        max_tick (acidTicks g text) - 1 ∈ acidTicks g text) ∧
      playTrace (Acid.text_to_event_queue g text).1 (max_tick (acidTicks g text)) =
        (Acid.text_to_event_queue g text).1) ∧
    (∀ (g : PyRandom) (text : String),
      (∀ x ∈ speedTicks g text, x < max_tick (speedTicks g text)) ∧
      (speedTicks g text ≠ [] →
        max_tick (speedTicks g text) - 1 ∈ speedTicks g text) ∧
      playTrace (Speed.text_to_event_queue g text).1 (max_tick (speedTicks g text)) =
        (Speed.text_to_event_queue g text).1) := by
  constructor
  · intro g text
    refine ⟨?_, ?_, ?_⟩
    · intro x hx
      have := le_foldr_max x _ hx
      unfold max_tick
      omega
    · intro hne
      unfold max_tick
      simpa using foldr_max_mem _ hne
    · apply ticksFrom_eq
      · exact (List.sorted_insertionSort tupleLE _).imp tupleLE_tick
      · intro e he
        refine ⟨Nat.zero_le _, ?_⟩
        have hmem : e.tick ∈ acidTicks g text :=
          List.mem_append_left _ (List.mem_map_of_mem Event.tick he)
        have := le_foldr_max e.tick _ hmem
        unfold max_tick
        omega
  · intro g text
    refine ⟨?_, ?_, ?_⟩
    · intro x hx
      have := le_foldr_max x _ hx
      unfold max_tick
      omega
    · intro hne
      unfold max_tick
      simpa using foldr_max_mem _ hne
    · apply ticksFrom_eq
      · exact (List.sorted_insertionSort tupleLE _).imp tupleLE_tick
      · intro e he
        refine ⟨Nat.zero_le _, ?_⟩
        have hmem : e.tick ∈ speedTicks g text :=
          List.mem_append_left _ (List.mem_map_of_mem Event.tick he)
        have := le_foldr_max e.tick _ hmem
        unfold max_tick
        omega

/-- Witness for C5 on the concrete input `"a"`: every listed tick is below
`max_tick`, `max_tick - 1` is attained, and the dispatch trace equals the
Merged Sequence. -/
theorem scheduler_dispatch_witness :
    (acidTicks ⟨0⟩ "a" ≠ [] → max_tick (acidTicks ⟨0⟩ "a") - 1 ∈ acidTicks ⟨0⟩ "a") ∧
    playTrace (Acid.text_to_event_queue ⟨0⟩ "a").1 (max_tick (acidTicks ⟨0⟩ "a")) =
      (Acid.text_to_event_queue ⟨0⟩ "a").1 :=
  ⟨(scheduler_dispatch.1 ⟨0⟩ "a").2.1, (scheduler_dispatch.1 ⟨0⟩ "a").2.2⟩

/-! ## C1: the drain leaves no active note behind -/

theorem addNote_nodup {s : List Int} (h : s.Nodup) (v : Int) : (addNote s v).Nodup := by
  unfold addNote
  split
  · exact h
  · next hv => simpa [List.nodup_append] using ⟨h, hv⟩

theorem applyEvent_nodup (d : String) {s : List Int} (h : s.Nodup) (e : Event) :
    (applyEvent d s e).Nodup := by
  unfold applyEvent discardNote
  split
  · split
    · exact addNote_nodup h _
    · split
      · exact h.erase _
      · exact h
  · exact h

theorem activeNotes_nodup_aux (d : String) :
    ∀ (evs : List Event) (s : List Int), s.Nodup → (evs.foldl (applyEvent d) s).Nodup := by
  intro evs
  induction evs with
  | nil => exact fun _ h => h
  | cons e es ih => exact fun s h => ih _ (applyEvent_nodup d h e)

/-- A track's active-notes set (as maintained by the scheduler) never holds
duplicates — it models a Python `set`. -/
theorem activeNotes_nodup (evs : List Event) (d : String) : (activeNotes evs d).Nodup :=
  activeNotes_nodup_aux d evs [] List.nodup_nil

theorem count_map_pair (d : String) (n : Int) :
    ∀ (l : List Int), ((l.map (fun m => ((d, m) : String × Int))).count (d, n)) = l.count n := by
  intro l
  induction l with
  | nil => rfl
  | cons m ms ih =>
    simp only [List.map_cons, List.count_cons, ih]
    by_cases hm : m = n
    · simp [hm]
    · simp [hm, Prod.ext_iff]

theorem count_map_pair_ne {d d' : String} (hne : d' ≠ d) (n : Int) (l : List Int) :
    ((l.map (fun m => ((d', m) : String × Int))).count (d, n)) = 0 := by
  rw [List.count_eq_zero]
  intro hmem
  rcases List.mem_map.mp hmem with ⟨m, -, hm⟩
  exact hne (congrArg Prod.fst hm)

theorem drain_count_not_mem (evs : List Event) (d : String) (n : Int) :
    ∀ (ds : List String), d ∉ ds → (drainMsgs ds evs).count (d, n) = 0 := by
  intro ds
  induction ds with
  | nil => intro _; rfl
  | cons d' ds' ih =>
    intro hd
    show ((activeNotes evs d').map (fun m => (d', m)) ++ drainMsgs ds' evs).count (d, n) = 0
    rw [List.count_append,
      count_map_pair_ne (fun h => hd (List.mem_cons.mpr (Or.inl h.symm))) n,
      ih (fun h => hd (List.mem_cons_of_mem d' h))]

/-- During drain, track `d` receives exactly one synthetic NoteOff for each
note in its active set and none for any other note. -/
theorem drain_count (evs : List Event) (d : String) (n : Int) :
    ∀ (devs : List String), devs.Nodup → d ∈ devs →
      (drainMsgs devs evs).count (d, n) =
        if n ∈ activeNotes evs d then 1 else 0 := by
  intro devs
  induction devs with
  | nil => intro _ hd; exact absurd hd (List.not_mem_nil d)
  | cons d' ds ih =>
    intro hnd hd
    show ((activeNotes evs d').map (fun m => (d', m)) ++ drainMsgs ds evs).count (d, n) = _
    rw [List.count_append]
    rcases List.mem_cons.mp hd with rfl | hd2
    · rw [count_map_pair, drain_count_not_mem evs d n ds (List.nodup_cons.mp hnd).1]
      by_cases hmem : n ∈ activeNotes evs d
      · rw [if_pos hmem, List.count_eq_one_of_mem (activeNotes_nodup evs d) hmem]
      · rw [if_neg hmem, List.count_eq_zero_of_not_mem hmem]
    · have hne : d' ≠ d := fun h => (List.nodup_cons.mp hnd).1 (by rw [h]; exact hd2)
      rw [count_map_pair_ne hne, ih (List.nodup_cons.mp hnd).2 hd2, Nat.zero_add]

theorem foldl_erase_all : ∀ (rem s : List Int), s.Nodup → (∀ x ∈ s, x ∈ rem) →
    rem.foldl (fun s v => s.erase v) s = [] := by
  intro rem
  induction rem with
  | nil =>
    intro s _ hsub
    exact List.eq_nil_iff_forall_not_mem.mpr fun x hx => absurd (hsub x hx) (List.not_mem_nil x)
  | cons r rs ih =>
    intro s hnd hsub
    show rs.foldl (fun s v => s.erase v) (s.erase r) = []
    refine ih _ (hnd.erase r) ?_
    intro x hx
    have hxs : x ∈ s := List.mem_of_mem_erase hx
    have hxr : x ≠ r := (List.Nodup.mem_erase_iff hnd).mp hx |>.1
    rcases List.mem_cons.mp (hsub x hxs) with h | h
    · exact absurd h hxr
    · exact h

/-- Discarding every note of the active set — which is exactly what the drain
dispatches — leaves the set empty. -/
theorem drain_empties (evs : List Event) (d : String) :
    (activeNotes evs d).foldl discardNote (activeNotes evs d) = [] :=
  foldl_erase_all (activeNotes evs d) (activeNotes evs d) (activeNotes_nodup evs d)
    (fun _ hx => hx)

/-- **C1.** On every exit path of the playback loop — normal completion or an
exit after any prefix of the dispatch sequence (a dispatch fault or external
interruption stops the loop after some prefix; the `finally` drain runs in all
cases) — for every track of the program's device table and every note still
in that track's active-notes set, the drain dispatches exactly one synthetic
NoteOff for it (and none for notes not in the set), and discarding the drained
notes leaves every track's active-notes set empty. -/
theorem drain_complete :
    (∀ (g : PyRandom) (text : String) (k : Nat) (d : String) (n : Int),
      d ∈ Acid.DEVICE_KEYS →
      ((drainMsgs Acid.DEVICE_KEYS ((Acid.text_to_event_queue g text).1.take k)).count (d, n) =
        if n ∈ activeNotes ((Acid.text_to_event_queue g text).1.take k) d then 1 else 0) ∧
      (activeNotes ((Acid.text_to_event_queue g text).1.take k) d).foldl discardNote
        (activeNotes ((Acid.text_to_event_queue g text).1.take k) d) = []) ∧
    (∀ (g : PyRandom) (text : String) (k : Nat) (d : String) (n : Int),
      d ∈ Speed.DEVICE_KEYS →
      ((drainMsgs Speed.DEVICE_KEYS ((Speed.text_to_event_queue g text).1.take k)).count (d, n) =
        if n ∈ activeNotes ((Speed.text_to_event_queue g text).1.take k) d then 1 else 0) ∧
      (activeNotes ((Speed.text_to_event_queue g text).1.take k) d).foldl discardNote
        (activeNotes ((Speed.text_to_event_queue g text).1.take k) d) = []) :=
  ⟨fun g text k d n hd =>
    ⟨drain_count _ d n Acid.DEVICE_KEYS (by decide) hd, drain_empties _ d⟩,
   fun g text k d n hd =>
    ⟨drain_count _ d n Speed.DEVICE_KEYS (by decide) hd, drain_empties _ d⟩⟩

/-- Witness for C1: speedcore input `"@"` interrupted after one dispatch — the
stuck `Samples` note 0 gets exactly one drain NoteOff, and the drain empties
the set. -/
theorem drain_complete_witness :
    ((drainMsgs Speed.DEVICE_KEYS ((Speed.text_to_event_queue ⟨0⟩ "@").1.take 1)).count
        ("Samples", 0) =
      if (0 : Int) ∈ activeNotes ((Speed.text_to_event_queue ⟨0⟩ "@").1.take 1) "Samples"
        then 1 else 0) ∧
    (activeNotes ((Speed.text_to_event_queue ⟨0⟩ "@").1.take 1) "Samples").foldl discardNote
      (activeNotes ((Speed.text_to_event_queue ⟨0⟩ "@").1.take 1) "Samples") = [] :=
  drain_complete.2 ⟨0⟩ "@" 1 "Samples" 0 (by decide)

end TextToMidi
